import Mathlib

/-!
Broken-pod detection and repair (`cni/pkg/repair`).

A shallow embedding of `repair.go` and `options.go`: the `detectPod` predicate
over the Kubernetes pod status, the per-pod actions `labelBrokenPod` and
`deleteBrokenPod` over an abstract pod store, `ReconcilePod`, `ListBrokenPods`,
the bulk operations `LabelBrokenPods` and `DeleteBrokenPods`, the one-shot
branch of `StartRepair`, and `parseFlags` from the resolved flag values.

Conventions of the embedding
* Go `string` is `String`; `strings.TrimSpace` works on the code points.
* Go `int32` / `int` are `Int`; the only conversion in the code,
  `int(state.ExitCode)`, widens and is the identity.
* A Go pointer that may be `nil` is an `Option`.
* A Go `map[string]string` that may be `nil` is an `Option` of an association
  list; only lookup and assignment are used by the code.
* A Go `error` is an `Option Error` (`none` is `nil`); a Go slice that may be
  `nil` is an `Option` of a list; a `for ... range` loop is a recursive function
  on the list it ranges over.
* Calls on the Kubernetes client are state passing over a `World`, which also
  records the sequence of calls issued and the metric increments.
* Log lines (`log.Infof`, ...) have no effect on results and are left out.
-/

namespace repair

/-! ## Kubernetes data model (the fields the package reads or writes) -/

/-- Contents of a Go `map[string]string`. -/
abbrev GoMap := List (String × String)

/-- Go `_, ok := m[k]` on a possibly nil map: presence of the key. -/
def GoMap.has : Option GoMap → String → Bool
  | none, _ => false
  | some m, k => m.any (fun e => e.1 == k)

/-- Go `m[k]` on a possibly nil map, as an optional value. -/
def GoMap.get : Option GoMap → String → Option String
  | none, _ => none
  | some m, k => (m.find? (fun e => e.1 == k)).map (fun e => e.2)

/-- Go `m[k] = v` on a non-nil map: overwrite the entry of `k`, or add one. -/
def GoMap.set : GoMap → String → String → GoMap
  | [], k, v => [(k, v)]
  | e :: m, k, v => if e.1 == k then (k, v) :: m else e :: GoMap.set m k v

/-- Kubernetes `v1.ContainerStateTerminated`. -/
structure ContainerStateTerminated where
  ExitCode : Int
  Reason : String
  Message : String
  deriving DecidableEq, Repr

/-- Kubernetes `v1.ContainerState`; only the `Terminated` pointer is read. -/
structure ContainerState where
  Terminated : Option ContainerStateTerminated
  deriving DecidableEq, Repr

/-- Kubernetes `v1.ContainerStatus`. -/
structure ContainerStatus where
  Name : String
  State : ContainerState
  LastTerminationState : ContainerState
  deriving DecidableEq, Repr

/-- Kubernetes `metav1.ObjectMeta`. -/
structure ObjectMeta where
  Name : String
  Namespace : String
  Labels : Option GoMap
  Annotations : Option GoMap
  deriving DecidableEq, Repr

/-- Kubernetes `v1.PodStatus`. -/
structure PodStatus where
  InitContainerStatuses : List ContainerStatus
  deriving DecidableEq, Repr

/-- Kubernetes `v1.Pod`. -/
structure Pod where
  ObjectMeta : ObjectMeta
  Status : PodStatus
  deriving DecidableEq, Repr

/-- Promoted field `pod.Name`. -/
abbrev Pod.Name (pod : Pod) : String := pod.ObjectMeta.Name

/-- Promoted field `pod.Namespace`. -/
abbrev Pod.Namespace (pod : Pod) : String := pod.ObjectMeta.Namespace

/-- Method `pod.GetLabels()`. -/
def Pod.GetLabels (pod : Pod) : Option GoMap := pod.ObjectMeta.Labels

/-- Method `pod.SetLabels(labels)`. -/
def Pod.SetLabels (pod : Pod) (labels : GoMap) : Pod :=
  { pod with ObjectMeta := { pod.ObjectMeta with Labels := some labels } }

/-! ## Package types -/

/-- The `Options` struct of `repair.go`. -/
structure Options where
  PodLabelKey : String
  PodLabelValue : String
  LabelPods : Bool
  DeletePods : Bool
  deriving DecidableEq, Repr

/-- The `Filters` struct of `repair.go`. -/
structure Filters where
  NodeName : String
  SidecarAnnotation : String
  InitContainerName : String
  InitContainerTerminationMessage : String
  InitContainerExitCode : Int
  FieldSelectors : String
  LabelSelectors : String
  deriving DecidableEq, Repr

/-! ## `strings.TrimSpace` -/

/-- Go `unicode.IsSpace`: the code points with the White_Space property. -/
def isSpace (c : Char) : Bool :=
  let n := c.toNat
  (0x09 ≤ n && n ≤ 0x0D) || n == 0x20 || n == 0x85 || n == 0xA0 || n == 0x1680 ||
    (0x2000 ≤ n && n ≤ 0x200A) || n == 0x2028 || n == 0x2029 || n == 0x202F ||
    n == 0x205F || n == 0x3000

/-- Go `strings.TrimSpace` on the code points of a string. -/
def trimSpaceChars (cs : List Char) : List Char :=
  (cs.dropWhile isSpace).rdropWhile isSpace

/-- Go `strings.TrimSpace`: all leading and trailing white space removed. -/
def TrimSpace (s : String) : String := ⟨trimSpaceChars s.data⟩

/-! ## `detectPod` -/

/-- Helper closure `matchTerminationMessage` of `detectPod`. -/
def matchTerminationMessage (f : Filters) (state : ContainerStateTerminated) : Bool :=
  let trimmedTerminationMessage := TrimSpace f.InitContainerTerminationMessage
  trimmedTerminationMessage == "" || trimmedTerminationMessage == TrimSpace state.Message

/-- Helper closure `matchExitCode` of `detectPod`. -/
def matchExitCode (f : Filters) (state : ContainerStateTerminated) : Bool :=
  let ec := f.InitContainerExitCode
  if ec == 0 || ec == state.ExitCode then true else false

/-- The `for _, container := range pod.Status.InitContainerStatuses` loop of
`detectPod`: `continue` is the recursive call, `return true` ends the scan, and
falling off the end is the final `return false`. -/
def detectPodLoop (f : Filters) : List ContainerStatus → Bool
  | [] => false
  | container :: rest =>
    if f.InitContainerName != "" && container.Name != f.InitContainerName then
      detectPodLoop f rest
    else if (match container.State.Terminated with
        | some state => state.Reason == "Completed" || state.ExitCode == 0
        | none => false) then
      detectPodLoop f rest
    else
      match container.LastTerminationState.Terminated with
      | some state =>
        if matchTerminationMessage f state && matchExitCode f state then true
        else detectPodLoop f rest
      | none => detectPodLoop f rest

/-- Method `brokenPodReconciler.detectPod`, as a function of the filters. -/
def detectPod (f : Filters) (pod : Pod) : Bool :=
  if f.SidecarAnnotation != "" && !(GoMap.has pod.ObjectMeta.Annotations f.SidecarAnnotation) then
    false
  else
    detectPodLoop f pod.Status.InitContainerStatuses

/-! ## The pod store and the world the actions run in -/

/-- A Go `error`, identified with its message (`err.Error()`). -/
abbrev Error := String

/-- The narrow part of `client.Interface` the package calls:
`CoreV1().Pods(namespace).List / Update / Delete`, each a transition of the
store state `σ` that also yields the result of the call. -/
structure Client (σ : Type) where
  podsList : σ → String → String → String → σ × Except Error (List Pod)
  podsUpdate : σ → String → Pod → σ × Except Error Pod
  podsDelete : σ → String → String → σ × Option Error

/-- One call issued on the pod store, with its arguments. -/
inductive StoreCall where
  | List (ns labelSelector fieldSelector : String)
  | Update (ns : String) (pod : Pod)
  | Delete (ns name : String)
  deriving DecidableEq, Repr

/-- Modelled from the spec: the values of the metric tag `typeLabel`
(`labelType`, `deleteType`), declared in the metrics file of the package, which is
not part of the sources at hand ("action-type: label|delete"). -/
inductive ActionType where
  | labelType
  | deleteType
  deriving DecidableEq, Repr

/-- Modelled from the spec: the values of the metric tag `resultLabel`
(`resultSuccess`, `resultSkip`, `resultFail`), declared in the metrics file
of the package, which is not part of the sources at hand ("result: success|skip|fail"). -/
inductive ResultType where
  | resultSuccess
  | resultSkip
  | resultFail
  deriving DecidableEq, Repr

/-- Everything outside the reconciler that its methods can change: the pod
store, the calls issued on it so far (oldest first) and the increments of the
`podsRepaired` metric so far (oldest first). -/
structure World (σ : Type) where
  store : σ
  calls : List StoreCall
  metrics : List (ActionType × ResultType)

/-- The call `podsRepaired.With(typeLabel.Value(t)).With(resultLabel.Value(r)).Increment()`. -/
def World.Increment {σ : Type} (w : World σ) (t : ActionType) (r : ResultType) : World σ :=
  { w with metrics := w.metrics ++ [(t, r)] }

/-- The `brokenPodReconciler` struct. -/
structure brokenPodReconciler (σ : Type) where
  client : Client σ
  Filters : Filters
  Options : Options

/-- The call `bpr.client.CoreV1().Pods(namespace).Update(ctx, &pod, opts)`. -/
def brokenPodReconciler.Update {σ : Type} (bpr : brokenPodReconciler σ) (w : World σ)
    (ns : String) (pod : Pod) : World σ × Except Error Pod :=
  let r := bpr.client.podsUpdate w.store ns pod
  ({ w with store := r.1, calls := w.calls ++ [StoreCall.Update ns pod] }, r.2)

/-- The call `bpr.client.CoreV1().Pods(namespace).Delete(ctx, name, opts)`. -/
def brokenPodReconciler.Delete {σ : Type} (bpr : brokenPodReconciler σ) (w : World σ)
    (ns name : String) : World σ × Option Error :=
  let r := bpr.client.podsDelete w.store ns name
  ({ w with store := r.1, calls := w.calls ++ [StoreCall.Delete ns name] }, r.2)

/-! ## The per-pod actions -/

/-- Method `brokenPodReconciler.labelBrokenPod`; the second component is the
named result `err`. The pod is taken as a value: the write
`labels[key] = value` goes into the pod passed to `Update`, and its effect on
a label map still shared with the caller after the call is not modelled. -/
def labelBrokenPod {σ : Type} (bpr : brokenPodReconciler σ) (pod : Pod) (w : World σ) :
    World σ × Option Error :=
  if !detectPod bpr.Filters pod then
    (w.Increment .labelType .resultSkip, none)
  else
    let labels := pod.GetLabels
    if GoMap.has labels bpr.Options.PodLabelKey then
      (w.Increment .labelType .resultSkip, none)
    else
      let labels : GoMap := match labels with
        | none => []
        | some m => m
      let labels := GoMap.set labels bpr.Options.PodLabelKey bpr.Options.PodLabelValue
      let pod := pod.SetLabels labels
      match bpr.Update w pod.Namespace pod with
      | (w, .error err) => (w.Increment .labelType .resultFail, some err)
      | (w, .ok _) => (w.Increment .labelType .resultSuccess, none)

/-- Method `brokenPodReconciler.deleteBrokenPod`. -/
def deleteBrokenPod {σ : Type} (bpr : brokenPodReconciler σ) (pod : Pod) (w : World σ) :
    World σ × Option Error :=
  if !detectPod bpr.Filters pod then
    (w.Increment .deleteType .resultSkip, none)
  else
    match bpr.Delete w pod.Namespace pod.Name with
    | (w, some err) => (w.Increment .deleteType .resultFail, some err)
    | (w, none) => (w.Increment .deleteType .resultSuccess, none)

/-! ## Reference definitions and test fixtures -/

/-- The test of one loop iteration of `detectPod` taken alone: the container
passes the name filter, its current state is not a clean exit, and its last
terminated state exists and passes both sub-predicates. -/
def brokenContainer (f : Filters) (container : ContainerStatus) : Bool :=
  !(f.InitContainerName != "" && container.Name != f.InitContainerName) &&
  !(match container.State.Terminated with
    | some state => state.Reason == "Completed" || state.ExitCode == 0
    | none => false) &&
  (match container.LastTerminationState.Terminated with
    | some state => matchTerminationMessage f state && matchExitCode f state
    | none => false)

/-- Reference definition of a broken pod, in the words of the specification:
the sidecar annotation key is empty or among the annotations of the pod, and
some init-container status passes the name filter, is not currently a clean
exit, and has a last terminated state that passes the message and exit-code
criteria. -/
def IsBroken (f : Filters) (p : Pod) : Prop :=
  (f.SidecarAnnotation = "" ∨
    ∃ m v, p.ObjectMeta.Annotations = some m ∧ (f.SidecarAnnotation, v) ∈ m) ∧
  ∃ c ∈ p.Status.InitContainerStatuses,
    (f.InitContainerName = "" ∨ c.Name = f.InitContainerName) ∧
    (c.State.Terminated = none ∨
      ∃ cur, c.State.Terminated = some cur ∧ cur.Reason ≠ "Completed" ∧ cur.ExitCode ≠ 0) ∧
    ∃ last, c.LastTerminationState.Terminated = some last ∧
      (TrimSpace f.InitContainerTerminationMessage = "" ∨
        TrimSpace f.InitContainerTerminationMessage = TrimSpace last.Message) ∧
      (f.InitContainerExitCode = 0 ∨ f.InitContainerExitCode = last.ExitCode)

/-- Test fixture: a terminated state. -/
def terminated (exitCode : Int) (reason message : String) : ContainerState :=
  ⟨some ⟨exitCode, reason, message⟩⟩

/-- Test fixture: a state that is not terminated (`Terminated == nil`). -/
def notTerminated : ContainerState := ⟨none⟩

/-- Test fixture: a pod in namespace `default` with the sidecar annotation. -/
def sidecarPod (name : String) (statuses : List ContainerStatus) : Pod :=
  ⟨⟨name, "default", none, some [("sidecar.istio.io/status", "injected")]⟩, ⟨statuses⟩⟩

/-- Test fixture: the default filters of `options.go` with the exit code 126 and
the message of Scenario A. -/
def scenarioFilters : Filters :=
  ⟨"", "sidecar.istio.io/status", "istio-validation", "driver not ready", 126, "", ""⟩

/-- Test fixture: `scenarioFilters` without an init-container name filter. -/
def anyNameFilters : Filters := { scenarioFilters with InitContainerName := "" }

/-- Test fixture: a crash-looping validation container (Scenario A). -/
def crashLooping : ContainerStatus :=
  ⟨"istio-validation", notTerminated, terminated 126 "Error" "driver not ready"⟩

/-- Test fixture: the validation container of Scenario B, which crash-looped
earlier and has since exited with code 0. -/
def exitedCleanly : ContainerStatus :=
  ⟨"istio-validation", terminated 0 "Completed" "", terminated 126 "Error" "driver not ready"⟩

/-- Test fixture: another init container that ran to completion. -/
def initDone : ContainerStatus :=
  ⟨"istio-init", terminated 0 "Completed" "", notTerminated⟩

/-- Test fixture: an in-memory pod store. `Update` replaces the stored pod with
the same namespace and name, `Delete` removes it, and both fail when there is
no such pod; `List` returns every stored pod. -/
def memoryClient : Client (List Pod) where
  podsList := fun s _ _ _ => (s, .ok s)
  podsUpdate := fun s ns pod =>
    if s.any (fun q => q.Namespace == ns && q.Name == pod.Name) then
      (s.map (fun q => if q.Namespace == ns && q.Name == pod.Name then pod else q), .ok pod)
    else (s, .error "pod not found")
  podsDelete := fun s ns name =>
    if s.any (fun q => q.Namespace == ns && q.Name == name) then
      (s.filter (fun q => !(q.Namespace == ns && q.Name == name)), none)
    else (s, some "pod not found")

/-- Test fixture: a pod store that cannot be reached; every call fails. -/
def unreachableClient : Client Unit where
  podsList := fun s _ _ _ => (s, .error "connection refused")
  podsUpdate := fun s _ _ => (s, .error "connection refused")
  podsDelete := fun s _ _ => (s, some "connection refused")

/-- Test fixture: the default label options of `options.go`, labeling on. -/
def labelOptions : Options := ⟨"cni.istio.io/uninitialized", "true", true, false⟩

/-- Test fixture: a world with the given store state and empty histories. -/
def freshWorld {σ : Type} (s : σ) : World σ := ⟨s, [], []⟩

/-- A string made of white space only (possibly empty). -/
def isBlank (s : String) : Bool := s.data.all isSpace

/-- The filters with white space `l` put before and `r` put after the
configured termination message. -/
def padFilters (l r : String) (f : Filters) : Filters :=
  { f with InitContainerTerminationMessage := l ++ f.InitContainerTerminationMessage ++ r }

/-- The container status with white space `l` put before and `r` put after the
message of its last terminated state, when it has one. -/
def padLastMessage (l r : String) (c : ContainerStatus) : ContainerStatus :=
  { c with LastTerminationState :=
      ⟨c.LastTerminationState.Terminated.map
        (fun st => { st with Message := l ++ st.Message ++ r })⟩ }

/-- Status `c2` is status `c1` with white space added around the message of the
last terminated state. -/
def PaddedStatus (c1 c2 : ContainerStatus) : Prop :=
  ∃ l r, isBlank l = true ∧ isBlank r = true ∧ c2 = padLastMessage l r c1

/-- The filters obtained by resetting the chosen fields to their empty value:
the sidecar annotation, the init-container name and the termination message to
the empty string, the exit code to 0. -/
def relax (sidecar name message exitCode : Bool) (f : Filters) : Filters :=
  { f with
    SidecarAnnotation := if sidecar then "" else f.SidecarAnnotation
    InitContainerName := if name then "" else f.InitContainerName
    InitContainerTerminationMessage :=
      if message then "" else f.InitContainerTerminationMessage
    InitContainerExitCode := if exitCode then 0 else f.InitContainerExitCode }

/-! ## Listing, bulk operations and dispatch -/

/-- Go `multierr.Append(left, right)`: nil when both are nil, the non-nil one
when only one is, and otherwise the combined error, whose message is the two
messages joined by `"; "`. -/
def multierr.Append : Option Error → Option Error → Option Error
  | none, right => right
  | some left, none => some left
  | some left, some right => some (left ++ "; " ++ right)

/-- Kubernetes `v1.PodList`; `Items` is a slice, `none` being the nil slice. -/
structure PodList where
  Items : Option (List Pod)
  deriving DecidableEq, Repr

/-- Go `for _, pod := range list.Items` over a possibly nil slice. -/
def PodList.range (list : PodList) : List Pod :=
  match list.Items with
  | none => []
  | some items => items

/-- The call `bpr.client.CoreV1().Pods(ns).List(ctx, ListOptions)` with the two
selector strings of the options. -/
def brokenPodReconciler.List {σ : Type} (bpr : brokenPodReconciler σ) (w : World σ)
    (ns labelSelector fieldSelector : String) : World σ × Except Error (List Pod) :=
  let r := bpr.client.podsList w.store ns labelSelector fieldSelector
  ({ w with store := r.1, calls := w.calls ++ [StoreCall.List ns labelSelector fieldSelector] },
    r.2)

/-- The loop of `ListBrokenPods`: `items` is `list.Items` so far, the second
argument what is left of `rawList.Items`. -/
def ListBrokenPods.loop (f : Filters) : List Pod → List Pod → List Pod
  | items, [] => items
  | items, pod :: rest =>
    if detectPod f pod then ListBrokenPods.loop f (items ++ [pod]) rest
    else ListBrokenPods.loop f items rest

/-- Method `brokenPodReconciler.ListBrokenPods`; the results are `list` and
`err`. -/
def ListBrokenPods {σ : Type} (bpr : brokenPodReconciler σ) (w : World σ) :
    World σ × PodList × Option Error :=
  match bpr.List w "" bpr.Filters.LabelSelectors bpr.Filters.FieldSelectors with
  | (w, .error err) => (w, ⟨none⟩, some err)
  | (w, .ok rawItems) => (w, ⟨some (ListBrokenPods.loop bpr.Filters [] rawItems)⟩, none)

/-- The loop of `LabelBrokenPods`; `err` is the error accumulated so far. -/
def LabelBrokenPods.loop {σ : Type} (bpr : brokenPodReconciler σ) :
    List Pod → World σ → Option Error → World σ × Option Error
  | [], w, err => (w, err)
  | pod :: rest, w, err =>
    LabelBrokenPods.loop bpr rest (labelBrokenPod bpr pod w).1
      (multierr.Append err (labelBrokenPod bpr pod w).2)

/-- Method `brokenPodReconciler.LabelBrokenPods`. -/
def LabelBrokenPods {σ : Type} (bpr : brokenPodReconciler σ) (w : World σ) :
    World σ × Option Error :=
  match ListBrokenPods bpr w with
  | (w, _, some err) => (w, some err)
  | (w, podList, none) => LabelBrokenPods.loop bpr podList.range w none

/-- The first loop of `DeleteBrokenPods`; `loopErrors` holds the messages of
the errors collected so far. -/
def DeleteBrokenPods.loop {σ : Type} (bpr : brokenPodReconciler σ) :
    List Pod → World σ → List Error → World σ × List Error
  | [], w, loopErrors => (w, loopErrors)
  | pod :: rest, w, loopErrors =>
    match (deleteBrokenPod bpr pod w).2 with
    | some err =>
      DeleteBrokenPods.loop bpr rest (deleteBrokenPod bpr pod w).1 (loopErrors ++ [err])
    | none => DeleteBrokenPods.loop bpr rest (deleteBrokenPod bpr pod w).1 loopErrors

/-- The second loop of `DeleteBrokenPods`, over `loopErrors[1:]`:
`lerr = fmt.Sprintf("%s,%s", lerr, err.Error())`. -/
def DeleteBrokenPods.join : String → List Error → String
  | lerr, [] => lerr
  | lerr, err :: rest => DeleteBrokenPods.join (lerr ++ "," ++ err) rest

/-- Method `brokenPodReconciler.DeleteBrokenPods`. -/
def DeleteBrokenPods {σ : Type} (bpr : brokenPodReconciler σ) (w : World σ) :
    World σ × Option Error :=
  match ListBrokenPods bpr w with
  | (w, _, some err) => (w, some err)
  | (w, podList, none) =>
    match DeleteBrokenPods.loop bpr podList.range w [] with
    | (w, []) => (w, none)
    | (w, first :: others) => (w, some (DeleteBrokenPods.join first others))

/-- Method `brokenPodReconciler.ReconcilePod`. -/
def ReconcilePod {σ : Type} (bpr : brokenPodReconciler σ) (pod : Pod) (w : World σ) :
    World σ × Option Error :=
  if bpr.Options.DeletePods then
    ((deleteBrokenPod bpr pod w).1, multierr.Append none (deleteBrokenPod bpr pod w).2)
  else if bpr.Options.LabelPods then
    ((labelBrokenPod bpr pod w).1, multierr.Append none (labelBrokenPod bpr pod w).2)
  else (w, none)

/-- The branch of `StartRepair` taken when `options.RunAsDaemon` is false, on
the reconciler `podFixer` built from the parsed flags. The second component is
`err` as tested by the final `if err != nil`, where a non-nil error ends the
process through `log.Fatalf`. -/
def StartRepair.oneShot {σ : Type} (podFixer : brokenPodReconciler σ) (w : World σ) :
    World σ × Option Error :=
  let afterLabel : World σ × Option Error :=
    if podFixer.Options.LabelPods then
      ((LabelBrokenPods podFixer w).1, multierr.Append none (LabelBrokenPods podFixer w).2)
    else (w, none)
  if podFixer.Options.DeletePods then
    ((DeleteBrokenPods podFixer afterLabel.1).1,
      multierr.Append afterLabel.2 (DeleteBrokenPods podFixer afterLabel.1).2)
  else afterLabel

/-! ## `options.go` -/

/-- The `controllerOptions` struct of `options.go`. -/
structure controllerOptions where
  RepairOptions : Options
  RunAsDaemon : Bool
  Enabled : Bool
  deriving DecidableEq, Repr

/-- The values `viper` resolves for the flags that `init` registers, one field
per flag; the default of each is the one given to `pflag` in `init`, except
for the exit code, whose default `constants.ValidationErrorCode` is declared
outside the package. -/
structure Flags where
  repairNodeName : String := ""
  repairSidecarAnnotation : String := "sidecar.istio.io/status"
  repairInitContainerName : String := "istio-validation"
  repairInitContainerTerminationMessage : String := ""
  repairInitContainerExitCode : Int
  repairLabelSelectors : String := ""
  repairFieldSelectors : String := ""
  repairEnabled : Bool := true
  repairDeletePods : Bool := false
  repairLabelPods : Bool := false
  repairRunAsDaemon : Bool := false
  repairBrokenPodLabelKey : String := "cni.istio.io/uninitialized"
  repairBrokenPodLabelValue : String := "true"
  deriving DecidableEq, Repr

/-- Function `parseFlags`, from the point where the flags are resolved:
`filters` and `options` are filled from the flag values and the node name, when
set, is put in front of the field selectors by
`fmt.Sprintf("%s=%s,%s", "spec.nodeName", nodeName, filters.FieldSelectors)`. -/
def parseFlags (flags : Flags) : Filters × controllerOptions :=
  let filters : Filters :=
    { NodeName := ""
      InitContainerName := flags.repairInitContainerName
      InitContainerTerminationMessage := flags.repairInitContainerTerminationMessage
      InitContainerExitCode := flags.repairInitContainerExitCode
      SidecarAnnotation := flags.repairSidecarAnnotation
      FieldSelectors := flags.repairFieldSelectors
      LabelSelectors := flags.repairLabelSelectors }
  let options : controllerOptions :=
    { Enabled := flags.repairEnabled
      RunAsDaemon := flags.repairRunAsDaemon
      RepairOptions :=
        { DeletePods := flags.repairDeletePods
          LabelPods := flags.repairLabelPods
          PodLabelKey := flags.repairBrokenPodLabelKey
          PodLabelValue := flags.repairBrokenPodLabelValue } }
  let nodeName := flags.repairNodeName
  if nodeName != "" then
    ({ filters with
        FieldSelectors := "spec.nodeName" ++ "=" ++ nodeName ++ "," ++ filters.FieldSelectors },
      options)
  else (filters, options)

/-- Go `strings.Split(s, ",")` on the code points: the terms of a
comma-separated list. -/
def splitTerms (s : String) : List String :=
  (s.data.splitOn ',').map String.mk

/-! ## Reference definitions and fixtures for the bulk operations -/

/-- Reference definition of "apply the action to every item, accumulating all
per-pod errors": the action is run on each pod in list order, each run
starting in the world the previous one left, and the result of every run is
kept. -/
def applyToEach {σ : Type} (action : Pod → World σ → World σ × Option Error) :
    List Pod → World σ → World σ × List (Option Error)
  | [], w => (w, [])
  | pod :: rest, w =>
    ((applyToEach action rest (action pod w).1).1,
      (action pod w).2 :: (applyToEach action rest (action pod w).1).2)

/-- The messages of the runs that failed, in order. -/
def failures (results : List (Option Error)) : List Error :=
  results.filterMap id

/-- Test fixture: the in-memory store with some pod names protected: `Update`
and `Delete` of a protected name fail with the message `forbidden`. -/
def protectedClient (names : List String) : Client (List Pod) where
  podsList := memoryClient.podsList
  podsUpdate := fun s ns pod =>
    if names.contains pod.Name then (s, .error "forbidden") else memoryClient.podsUpdate s ns pod
  podsDelete := fun s ns name =>
    if names.contains name then (s, some "forbidden") else memoryClient.podsDelete s ns name

/-- Test fixture: the default options with both actions switched on. -/
def labelAndDeleteOptions : Options := ⟨"cni.istio.io/uninitialized", "true", true, true⟩

/-- Test fixture: the default options with deleting switched on. -/
def deleteOptions : Options := ⟨"cni.istio.io/uninitialized", "true", false, true⟩

/-- Test fixture: a pod with the sidecar annotation and no init containers. -/
def healthyPod (name : String) : Pod := sidecarPod name []

/-- The pod with its annotation mapping replaced by `a`. -/
def withAnnotations (a : Option GoMap) (p : Pod) : Pod :=
  { p with ObjectMeta := { p.ObjectMeta with Annotations := a } }

/-- The pod with the name of every init-container status `c` replaced by
`g c`. -/
def withNames (g : ContainerStatus → String) (p : Pod) : Pod :=
  { p with Status := ⟨p.Status.InitContainerStatuses.map (fun c => { c with Name := g c })⟩ }

/-- The pod with the message of every last terminated state `st` replaced by
`g st`. -/
def withLastMessages (g : ContainerStateTerminated → String) (p : Pod) : Pod :=
  { p with Status := ⟨p.Status.InitContainerStatuses.map (fun c =>
      { c with LastTerminationState :=
          ⟨c.LastTerminationState.Terminated.map (fun st => { st with Message := g st })⟩ })⟩ }

/-- The pod with the exit code of every last terminated state `st` replaced
by `g st`. -/
def withLastExitCodes (g : ContainerStateTerminated → Int) (p : Pod) : Pod :=
  { p with Status := ⟨p.Status.InitContainerStatuses.map (fun c =>
      { c with LastTerminationState :=
          ⟨c.LastTerminationState.Terminated.map (fun st => { st with ExitCode := g st })⟩ })⟩ }

/-- Test fixture: the validation container crash-looping with the message of
Scenario A but the exit code 1. -/
def crashLoopingOtherCode : ContainerStatus :=
  ⟨"istio-validation", notTerminated, terminated 1 "Error" "driver not ready"⟩

/-- Test fixture: the validation container crash-looping with the exit code of
Scenario A but another message. -/
def crashLoopingOtherMessage : ContainerStatus :=
  ⟨"istio-validation", notTerminated, terminated 126 "Error" "out of memory"⟩

/-- Test fixture: the flag values of a run on node `node-1` with every other
flag at its default, the default exit code being 126. -/
def nodeFlags : Flags := { repairNodeName := "node-1", repairInitContainerExitCode := 126 }

/-! ## Basic facts -/

theorem trimSpaceChars_pad (l s r : List Char) (hl : ∀ c ∈ l, isSpace c = true)
    (hr : ∀ c ∈ r, isSpace c = true) :
    trimSpaceChars (l ++ s ++ r) = trimSpaceChars s := by
  unfold trimSpaceChars
  rw [List.append_assoc, List.dropWhile_append_of_pos hl, List.dropWhile_append]
  split
  · next hnil =>
    have h1 : List.dropWhile isSpace s = [] := List.isEmpty_iff.1 hnil
    have h2 : List.dropWhile isSpace r = [] := List.dropWhile_eq_nil_iff.2 hr
    rw [h1, h2]
  · unfold List.rdropWhile
    rw [List.reverse_append, List.dropWhile_append_of_pos]
    intro c hc
    exact hr c (List.mem_reverse.1 hc)

theorem TrimSpace_pad (l s r : String) (hl : isBlank l = true) (hr : isBlank r = true) :
    TrimSpace (l ++ s ++ r) = TrimSpace s := by
  unfold TrimSpace
  rw [String.data_append, String.data_append,
    trimSpaceChars_pad _ _ _ (List.all_eq_true.1 hl) (List.all_eq_true.1 hr)]


theorem GoMap.has_iff (a : Option GoMap) (k : String) :
    GoMap.has a k = true ↔ ∃ m v, a = some m ∧ (k, v) ∈ m := by
  cases a with
  | none => simp [GoMap.has]
  | some m =>
    simp only [GoMap.has, List.any_eq_true, beq_iff_eq, Option.some.injEq]
    constructor
    · rintro ⟨⟨k1, v⟩, hmem, hk⟩
      exact ⟨m, v, rfl, by simpa [← hk] using hmem⟩
    · rintro ⟨m1, v, rfl, hmem⟩
      exact ⟨(k, v), hmem, rfl⟩

theorem detectPodLoop_eq_any (f : Filters) (cs : List ContainerStatus) :
    detectPodLoop f cs = cs.any (brokenContainer f) := by
  induction cs with
  | nil => rfl
  | cons c rest ih =>
    rw [detectPodLoop, List.any_cons, ih, brokenContainer]
    by_cases h1 : (f.InitContainerName != "" && c.Name != f.InitContainerName) = true
    · simp [h1]
    · rw [if_neg h1]
      simp only [Bool.not_eq_true] at h1
      rw [h1]
      cases hs : c.State.Terminated with
      | none =>
        cases hl : c.LastTerminationState.Terminated with
        | none => simp
        | some last =>
          by_cases h3 : (matchTerminationMessage f last && matchExitCode f last) = true
          · simp [h3]
          · simp only [Bool.not_eq_true] at h3
            simp [h3]
      | some cur =>
        by_cases h2 : (cur.Reason == "Completed" || cur.ExitCode == 0) = true
        · simp [h2]
        · simp only [Bool.not_eq_true] at h2
          cases hl : c.LastTerminationState.Terminated with
          | none => simp [h2]
          | some last =>
            by_cases h3 : (matchTerminationMessage f last && matchExitCode f last) = true
            · simp [h2, h3]
            · simp only [Bool.not_eq_true] at h3
              simp [h2, h3]

theorem detectPod_eq (f : Filters) (p : Pod) :
    detectPod f p =
      ((f.SidecarAnnotation == "" || GoMap.has p.ObjectMeta.Annotations f.SidecarAnnotation) &&
        p.Status.InitContainerStatuses.any (brokenContainer f)) := by
  rw [detectPod, detectPodLoop_eq_any]
  cases h1 : (f.SidecarAnnotation == "") <;>
    cases h2 : GoMap.has p.ObjectMeta.Annotations f.SidecarAnnotation <;>
    simp [bne, h1, h2]

theorem matchTerminationMessage_iff (f : Filters) (st : ContainerStateTerminated) :
    matchTerminationMessage f st = true ↔
      (TrimSpace f.InitContainerTerminationMessage = "" ∨
        TrimSpace f.InitContainerTerminationMessage = TrimSpace st.Message) := by
  simp [matchTerminationMessage]

theorem matchExitCode_iff (f : Filters) (st : ContainerStateTerminated) :
    matchExitCode f st = true ↔
      (f.InitContainerExitCode = 0 ∨ f.InitContainerExitCode = st.ExitCode) := by
  simp [matchExitCode]

theorem brokenContainer_iff (f : Filters) (c : ContainerStatus) :
    brokenContainer f c = true ↔
      (f.InitContainerName = "" ∨ c.Name = f.InitContainerName) ∧
      (c.State.Terminated = none ∨
        ∃ cur, c.State.Terminated = some cur ∧ cur.Reason ≠ "Completed" ∧ cur.ExitCode ≠ 0) ∧
      ∃ last, c.LastTerminationState.Terminated = some last ∧
        (TrimSpace f.InitContainerTerminationMessage = "" ∨
          TrimSpace f.InitContainerTerminationMessage = TrimSpace last.Message) ∧
        (f.InitContainerExitCode = 0 ∨ f.InitContainerExitCode = last.ExitCode) := by
  rw [brokenContainer]
  simp only [Bool.and_eq_true, Bool.not_eq_true_eq_eq_false, Bool.and_eq_false_imp,
    bne_iff_ne, ne_eq, bne_eq_false_iff_eq]
  have e1 : (¬f.InitContainerName = "" → c.Name = f.InitContainerName) ↔
      (f.InitContainerName = "" ∨ c.Name = f.InitContainerName) := by tauto
  rw [e1, and_assoc]
  refine and_congr Iff.rfl (and_congr ?_ ?_)
  · cases hs : c.State.Terminated with
    | none => simp
    | some cur => simp
  · cases hl : c.LastTerminationState.Terminated with
    | none => simp
    | some last => simp [matchTerminationMessage_iff, matchExitCode_iff]

/-! ## Theorems about `detectPod` -/

/-- C1: `detectPod` agrees with the reference definition `IsBroken` for every
filter configuration and pod, and a pod without init-container statuses is
never broken. -/
theorem detectPod_iff_IsBroken (f : Filters) (p : Pod) :
    (detectPod f p = true ↔ IsBroken f p) ∧
      ∀ (m : ObjectMeta), detectPod f ⟨m, ⟨[]⟩⟩ = false := by
  constructor
  · rw [detectPod_eq, IsBroken]
    simp only [Bool.and_eq_true, Bool.or_eq_true, beq_iff_eq, List.any_eq_true,
      GoMap.has_iff, brokenContainer_iff]
  · intro m
    simp [detectPod_eq]

/-- Scenario A (crash-looping validation container, exit code 126, message
`driver not ready`) is broken, Scenario B (same history, current exit code 0)
is not, for `detectPod` and for the reference definition alike. -/
theorem detectPod_iff_IsBroken_witness :
    (detectPod scenarioFilters (sidecarPod "a" [crashLooping]) = true ∧
      IsBroken scenarioFilters (sidecarPod "a" [crashLooping])) ∧
    (detectPod scenarioFilters (sidecarPod "b" [exitedCleanly]) = false ∧
      ¬ IsBroken scenarioFilters (sidecarPod "b" [exitedCleanly])) :=
  ⟨⟨by decide,
      (detectPod_iff_IsBroken scenarioFilters (sidecarPod "a" [crashLooping])).1.1 (by decide)⟩,
    ⟨by decide, fun h =>
      absurd ((detectPod_iff_IsBroken scenarioFilters (sidecarPod "b" [exitedCleanly])).1.2 h)
        (by decide)⟩⟩

/-- C2: the claim, and the comment above the clean-exit check in `detectPod`
("If the container successfully exited, we NEVER want to identify this pod as
broken"), fail on the code. With no name filter, the pod below has an init
container that passes the name filter and exited cleanly (`istio-init`, reason
`Completed`, exit code 0), yet `detectPod` returns true: the check only
`continue`s, and the scan goes on to the crash-looping `istio-validation`
container. -/
theorem detectPod_true_beside_clean_exit :
    (∃ c ∈ (sidecarPod "a" [initDone, crashLooping]).Status.InitContainerStatuses,
      (anyNameFilters.InitContainerName = "" ∨ c.Name = anyNameFilters.InitContainerName) ∧
      ∃ cur, c.State.Terminated = some cur ∧ (cur.Reason = "Completed" ∨ cur.ExitCode = 0)) ∧
    detectPod anyNameFilters (sidecarPod "a" [initDone, crashLooping]) = true := by
  refine ⟨⟨initDone, by simp [sidecarPod], Or.inl rfl, ⟨0, "Completed", ""⟩, rfl, Or.inl rfl⟩, ?_⟩
  decide

/-- What the clean-exit check does guarantee as written: if every init
container that passes the name filter has a current terminated state whose
reason is `Completed` or whose exit code is 0, then `detectPod` returns false,
whatever the last terminated states are. -/
theorem detectPod_false_of_clean_exits (f : Filters) (p : Pod)
    (h : ∀ c ∈ p.Status.InitContainerStatuses,
      (f.InitContainerName = "" ∨ c.Name = f.InitContainerName) →
      ∃ cur, c.State.Terminated = some cur ∧ (cur.Reason = "Completed" ∨ cur.ExitCode = 0)) :
    detectPod f p = false := by
  rw [detectPod_eq]
  have hany : p.Status.InitContainerStatuses.any (brokenContainer f) = false := by
    rw [List.any_eq_false]
    intro c hc hb
    obtain ⟨hname, hcur, _⟩ := (brokenContainer_iff f c).1 hb
    obtain ⟨cur, hs, hclean⟩ := h c hc hname
    rcases hcur with hnone | ⟨cur1, hs1, hr, he⟩
    · rw [hnone] at hs
      cases hs
    · rw [hs1] at hs
      cases hs
      rcases hclean with h1 | h1
      · exact hr h1
      · exact he h1
  rw [hany, Bool.and_false]

/-- Scenario B: the only matching container has exited with code 0, so the pod
is not broken although its last terminated state matches the filters. -/
theorem detectPod_false_of_clean_exits_witness :
    detectPod scenarioFilters (sidecarPod "b" [exitedCleanly]) = false ∧
    matchTerminationMessage scenarioFilters ⟨126, "Error", "driver not ready"⟩ = true ∧
    matchExitCode scenarioFilters ⟨126, "Error", "driver not ready"⟩ = true :=
  ⟨detectPod_false_of_clean_exits scenarioFilters (sidecarPod "b" [exitedCleanly]) (by
      intro c hc _
      simp only [sidecarPod, List.mem_singleton] at hc
      subst hc
      exact ⟨⟨0, "Completed", ""⟩, rfl, Or.inl rfl⟩),
    by decide, by decide⟩

/-- C3, as stated, fails in two ways, each with an empty name filter and a last
terminated state that passes both criteria: the container itself has since
exited cleanly, or the pod lacks the configured sidecar annotation. -/
theorem detectPod_any_match_counterexample :
    (anyNameFilters.InitContainerName = "" ∧
      (∃ c ∈ (sidecarPod "b" [exitedCleanly]).Status.InitContainerStatuses,
        ∃ last, c.LastTerminationState.Terminated = some last ∧
          matchTerminationMessage anyNameFilters last = true ∧
          matchExitCode anyNameFilters last = true) ∧
      detectPod anyNameFilters (sidecarPod "b" [exitedCleanly]) = false) ∧
    (anyNameFilters.InitContainerName = "" ∧
      (∃ c ∈ (Pod.mk ⟨"c", "default", none, none⟩ ⟨[crashLooping]⟩).Status.InitContainerStatuses,
        ∃ last, c.LastTerminationState.Terminated = some last ∧
          matchTerminationMessage anyNameFilters last = true ∧
          matchExitCode anyNameFilters last = true) ∧
      detectPod anyNameFilters (Pod.mk ⟨"c", "default", none, none⟩ ⟨[crashLooping]⟩) = false) := by
  refine ⟨⟨rfl, ⟨exitedCleanly, by simp [sidecarPod], _, rfl, by decide, by decide⟩, by decide⟩,
    ⟨rfl, ⟨crashLooping, by simp, _, rfl, by decide, by decide⟩, by decide⟩⟩

/-- C3, amended: for filters with an empty `InitContainerName` and a pod that
passes the sidecar-annotation gate (key empty, or present on the pod), if any
init-container status whose current state is not a clean exit has a last
terminated state that satisfies the termination-message criterion and the
exit-code criterion, then `detectPod` returns true. -/
theorem detectPod_true_of_any_match (f : Filters) (p : Pod)
    (hname : f.InitContainerName = "")
    (hgate : f.SidecarAnnotation = "" ∨
      GoMap.has p.ObjectMeta.Annotations f.SidecarAnnotation = true)
    (c : ContainerStatus) (hc : c ∈ p.Status.InitContainerStatuses)
    (hcur : ∀ cur, c.State.Terminated = some cur → cur.Reason ≠ "Completed" ∧ cur.ExitCode ≠ 0)
    (last : ContainerStateTerminated) (hlast : c.LastTerminationState.Terminated = some last)
    (hmsg : matchTerminationMessage f last = true) (hcode : matchExitCode f last = true) :
    detectPod f p = true := by
  rw [detectPod_eq]
  have hb : brokenContainer f c = true := by
    rw [brokenContainer_iff]
    refine ⟨Or.inl hname, ?_, last, hlast, (matchTerminationMessage_iff f last).1 hmsg,
      (matchExitCode_iff f last).1 hcode⟩
    cases hs : c.State.Terminated with
    | none => exact Or.inl rfl
    | some cur => exact Or.inr ⟨cur, rfl, hcur cur hs⟩
  have hany : p.Status.InitContainerStatuses.any (brokenContainer f) = true :=
    List.any_eq_true.2 ⟨c, hc, hb⟩
  rw [hany, Bool.and_true]
  rcases hgate with h | h
  · simp [h]
  · simp [h]

/-- With no name filter, the crash-looping second container makes the pod
broken although the first one is a different, completed init container. -/
theorem detectPod_true_of_any_match_witness :
    detectPod anyNameFilters (sidecarPod "a" [initDone, crashLooping]) = true :=
  detectPod_true_of_any_match anyNameFilters (sidecarPod "a" [initDone, crashLooping]) rfl
    (Or.inr (by decide)) crashLooping (by simp [sidecarPod])
    (by intro cur h; cases h) ⟨126, "Error", "driver not ready"⟩ rfl (by decide) (by decide)

/-- C4: with a non-empty `SidecarAnnotation` key, a pod whose annotation
mapping (nil or not) lacks that key is never broken, whatever its status; and
`detectPod` depends on the annotations only through the presence of the key,
never through a value. -/
theorem detectPod_false_without_sidecar_key (f : Filters) (m : ObjectMeta) (st : PodStatus)
    (hkey : f.SidecarAnnotation ≠ "")
    (habsent : GoMap.has m.Annotations f.SidecarAnnotation = false) :
    detectPod f ⟨m, st⟩ = false ∧
    (∀ m0 : ObjectMeta, m0.Annotations = none → detectPod f ⟨m0, st⟩ = false) ∧
    (∀ p q : Pod, p.Status = q.Status →
      GoMap.has p.ObjectMeta.Annotations f.SidecarAnnotation =
        GoMap.has q.ObjectMeta.Annotations f.SidecarAnnotation →
      detectPod f p = detectPod f q) := by
  refine ⟨?_, ?_, ?_⟩
  · simp [detectPod_eq, hkey, habsent]
  · intro m0 h0
    simp [detectPod_eq, hkey, h0, GoMap.has]
  · intro p q hst hann
    rw [detectPod_eq, detectPod_eq, hst, hann]

/-- A crash-looping pod whose annotations are nil is not broken when the
sidecar annotation key of `options.go` is configured. -/
theorem detectPod_false_without_sidecar_key_witness :
    detectPod scenarioFilters ⟨⟨"c", "default", none, none⟩, ⟨[crashLooping]⟩⟩ = false :=
  (detectPod_false_without_sidecar_key scenarioFilters ⟨"c", "default", none, none⟩
    ⟨[crashLooping]⟩ (by decide) rfl).1

/-- C5: white space added before or after the configured termination message,
and before or after the last-terminated message of any init containers, does
not change the result of `detectPod`. -/
theorem detectPod_padding_invariant (f : Filters) (p q : Pod) (l r : String)
    (hl : isBlank l = true) (hr : isBlank r = true)
    (hmeta : q.ObjectMeta = p.ObjectMeta)
    (hpad : List.Forall₂ PaddedStatus p.Status.InitContainerStatuses
      q.Status.InitContainerStatuses) :
    detectPod (padFilters l r f) q = detectPod f p := by
  have hmsg : ∀ st : ContainerStateTerminated, ∀ l1 r1 : String,
      isBlank l1 = true → isBlank r1 = true →
      matchTerminationMessage (padFilters l r f) { st with Message := l1 ++ st.Message ++ r1 } =
        matchTerminationMessage f st := by
    intro st l1 r1 h1 h2
    simp only [matchTerminationMessage, padFilters, TrimSpace_pad _ _ _ hl hr,
      TrimSpace_pad _ _ _ h1 h2]
  have hone : ∀ c1 c2, PaddedStatus c1 c2 →
      brokenContainer (padFilters l r f) c2 = brokenContainer f c1 := by
    rintro c1 c2 ⟨l1, r1, h1, h2, rfl⟩
    unfold brokenContainer
    cases hlast : c1.LastTerminationState.Terminated with
    | none => simp [padLastMessage, padFilters, hlast]
    | some st =>
      have := hmsg st l1 r1 h1 h2
      simp only [padLastMessage, hlast, Option.map_some', this]
      simp [padFilters, matchExitCode]
  have hany : ∀ cs1 cs2, List.Forall₂ PaddedStatus cs1 cs2 →
      cs2.any (brokenContainer (padFilters l r f)) = cs1.any (brokenContainer f) := by
    intro cs1 cs2 h
    induction h with
    | nil => rfl
    | cons hc _ ih => rw [List.any_cons, List.any_cons, ih, hone _ _ hc]
  rw [detectPod_eq, detectPod_eq, hany _ _ hpad, hmeta]
  rfl

/-- The stored message `" foo "` matches the configured filter `"foo"`, and
the other way round. -/
theorem detectPod_padding_invariant_witness :
    matchTerminationMessage { scenarioFilters with InitContainerTerminationMessage := "foo" }
      ⟨126, "Error", " foo "⟩ = true ∧
    detectPod (padFilters " " "\n" { scenarioFilters with InitContainerTerminationMessage := "foo" })
        (sidecarPod "a" [padLastMessage "\t " " " ⟨"istio-validation", notTerminated,
          terminated 126 "Error" "foo"⟩]) =
      detectPod { scenarioFilters with InitContainerTerminationMessage := "foo" }
        (sidecarPod "a" [⟨"istio-validation", notTerminated, terminated 126 "Error" "foo"⟩]) :=
  ⟨by decide,
    detectPod_padding_invariant _ _ _ " " "\n" (by decide) (by decide) rfl
      (List.Forall₂.cons ⟨"\t ", " ", by decide, by decide, rfl⟩ List.Forall₂.nil)⟩

/-- C6: the exit-code sub-predicate holds exactly when the configured code is 0
or equals the observed code; so 0 matches every observed code and a non-zero
configured code matches only itself. -/
theorem matchExitCode_spec (f : Filters) (st : ContainerStateTerminated) :
    (matchExitCode f st = true ↔
      (f.InitContainerExitCode = 0 ∨ f.InitContainerExitCode = st.ExitCode)) ∧
    matchExitCode { f with InitContainerExitCode := 0 } st = true ∧
    (f.InitContainerExitCode ≠ 0 →
      (matchExitCode f st = true ↔ st.ExitCode = f.InitContainerExitCode)) := by
  refine ⟨matchExitCode_iff f st, ?_, ?_⟩
  · simp [matchExitCode]
  · intro h
    rw [matchExitCode_iff]
    constructor
    · rintro (h0 | h1)
      · exact absurd h0 h
      · exact h1.symm
    · intro h1
      exact Or.inr h1.symm

/-- The configured code 126 matches the observed code 126 and not 1; the
configured code 0 matches 1. -/
theorem matchExitCode_spec_witness :
    matchExitCode scenarioFilters ⟨126, "Error", ""⟩ = true ∧
    matchExitCode scenarioFilters ⟨1, "Error", ""⟩ = false ∧
    matchExitCode { scenarioFilters with InitContainerExitCode := 0 } ⟨1, "Error", ""⟩ = true :=
  ⟨((matchExitCode_spec scenarioFilters ⟨126, "Error", ""⟩).2.2 (by decide)).2 rfl,
    by
      cases h : matchExitCode scenarioFilters ⟨1, "Error", ""⟩ with
      | false => rfl
      | true =>
        exact absurd (((matchExitCode_spec scenarioFilters ⟨1, "Error", ""⟩).2.2 (by decide)).1 h)
          (by decide),
    (matchExitCode_spec scenarioFilters ⟨1, "Error", ""⟩).2.1⟩

theorem brokenContainer_relax (f : Filters) (c : ContainerStatus)
    (sidecar name message exitCode : Bool) (hb : brokenContainer f c = true) :
    brokenContainer (relax sidecar name message exitCode f) c = true := by
  have htrim : TrimSpace "" = "" := by decide
  obtain ⟨h1, h2, last, h3, h4, h5⟩ := (brokenContainer_iff f c).1 hb
  rw [brokenContainer_iff]
  refine ⟨?_, h2, last, h3, ?_, ?_⟩
  · cases name with
    | true => exact Or.inl rfl
    | false => exact h1
  · cases message with
    | true => exact Or.inl htrim
    | false => exact h4
  · cases exitCode with
    | true => exact Or.inl rfl
    | false => exact h5

theorem brokenContainer_any_name (f : Filters) (hname : f.InitContainerName = "")
    (c : ContainerStatus) (n : String) :
    brokenContainer f { c with Name := n } = brokenContainer f c := by
  simp [brokenContainer, hname]

theorem brokenContainer_any_message (f : Filters)
    (hmsg : f.InitContainerTerminationMessage = "") (c : ContainerStatus)
    (g : ContainerStateTerminated → String) :
    brokenContainer f { c with LastTerminationState :=
        ⟨c.LastTerminationState.Terminated.map (fun st => { st with Message := g st })⟩ } =
      brokenContainer f c := by
  have htrim : TrimSpace "" = "" := by decide
  have hall : ∀ st, matchTerminationMessage f st = true := by
    intro st
    simp [matchTerminationMessage, hmsg, htrim]
  unfold brokenContainer
  cases hlast : c.LastTerminationState.Terminated with
  | none => simp [hlast]
  | some st => simp [hlast, hall, matchExitCode]

theorem brokenContainer_any_exit_code (f : Filters) (hcode : f.InitContainerExitCode = 0)
    (c : ContainerStatus) (g : ContainerStateTerminated → Int) :
    brokenContainer f { c with LastTerminationState :=
        ⟨c.LastTerminationState.Terminated.map (fun st => { st with ExitCode := g st })⟩ } =
      brokenContainer f c := by
  have hall : ∀ st, matchExitCode f st = true := by
    intro st
    simp [matchExitCode, hcode]
  unfold brokenContainer
  cases hlast : c.LastTerminationState.Terminated with
  | none => simp [hlast]
  | some st => simp [hlast, hall, matchTerminationMessage]

/-- C7: the filter fields are AND-combined and an empty field is a wildcard.
`detectPod` is true exactly when the sidecar criterion holds and one
init-container status, not currently a clean exit, meets the name, the message
and the exit-code criterion together, each criterion being "the field is empty
or the observed value agrees with it". Resetting any subset of the four fields
to the empty value keeps a broken pod broken. And each field taken alone, once
empty, puts no condition on the observed value: the result is the same for
any annotations, any container names, any last-terminated messages, any
last-terminated exit codes, empty or not. -/
theorem detectPod_fields_conjunction (f : Filters) (p : Pod) :
    (detectPod f p = true ↔
      (f.SidecarAnnotation = "" ∨
        GoMap.has p.ObjectMeta.Annotations f.SidecarAnnotation = true) ∧
      ∃ c ∈ p.Status.InitContainerStatuses,
        (f.InitContainerName = "" ∨ c.Name = f.InitContainerName) ∧
        (c.State.Terminated = none ∨
          ∃ cur, c.State.Terminated = some cur ∧ cur.Reason ≠ "Completed" ∧ cur.ExitCode ≠ 0) ∧
        ∃ last, c.LastTerminationState.Terminated = some last ∧
          (TrimSpace f.InitContainerTerminationMessage = "" ∨
            TrimSpace f.InitContainerTerminationMessage = TrimSpace last.Message) ∧
          (f.InitContainerExitCode = 0 ∨ f.InitContainerExitCode = last.ExitCode)) ∧
    (∀ sidecar name message exitCode : Bool, detectPod f p = true →
      detectPod (relax sidecar name message exitCode f) p = true) ∧
    (f.SidecarAnnotation = "" →
      ∀ a : Option GoMap, detectPod f (withAnnotations a p) = detectPod f p) ∧
    (f.InitContainerName = "" →
      ∀ g : ContainerStatus → String, detectPod f (withNames g p) = detectPod f p) ∧
    (f.InitContainerTerminationMessage = "" →
      ∀ g : ContainerStateTerminated → String,
        detectPod f (withLastMessages g p) = detectPod f p) ∧
    (f.InitContainerExitCode = 0 →
      ∀ g : ContainerStateTerminated → Int,
        detectPod f (withLastExitCodes g p) = detectPod f p) := by
  refine ⟨?_, ?_, ?_, ?_, ?_, ?_⟩
  · rw [detectPod_eq]
    simp only [Bool.and_eq_true, Bool.or_eq_true, beq_iff_eq, List.any_eq_true,
      brokenContainer_iff]
  · intro sidecar name message exitCode h
    rw [detectPod_eq, Bool.and_eq_true, List.any_eq_true] at h
    obtain ⟨hgate, c, hc, hb⟩ := h
    rw [detectPod_eq, Bool.and_eq_true, List.any_eq_true]
    constructor
    · cases sidecar with
      | true => simp [relax]
      | false => simpa [relax] using hgate
    · exact ⟨c, hc, brokenContainer_relax f c sidecar name message exitCode hb⟩
  · intro h a
    simp [detectPod_eq, withAnnotations, h]
  · intro h g
    rw [detectPod_eq, detectPod_eq]
    simp only [withNames, List.any_map]
    congr 2
    funext c
    exact brokenContainer_any_name f h c (g c)
  · intro h g
    rw [detectPod_eq, detectPod_eq]
    simp only [withLastMessages, List.any_map]
    congr 2
    funext c
    exact brokenContainer_any_message f h c g
  · intro h g
    rw [detectPod_eq, detectPod_eq]
    simp only [withLastExitCodes, List.any_map]
    congr 2
    funext c
    exact brokenContainer_any_exit_code f h c g

/-- The pod of Scenario A is broken and stays broken when the name and the
exit-code filters are reset; a pod that meets the message but not the exit
code, or the exit code but not the message, is not broken; and without a name
filter the pod of Scenario A is broken under any container name. -/
theorem detectPod_fields_conjunction_witness :
    (detectPod scenarioFilters (sidecarPod "a" [crashLooping]) = true ∧
      detectPod (relax false true false true scenarioFilters)
        (sidecarPod "a" [crashLooping]) = true) ∧
    detectPod scenarioFilters (sidecarPod "a" [crashLoopingOtherCode]) = false ∧
    detectPod scenarioFilters (sidecarPod "a" [crashLoopingOtherMessage]) = false ∧
    (detectPod anyNameFilters (withNames (fun _ => "renamed") (sidecarPod "a" [crashLooping])) =
        detectPod anyNameFilters (sidecarPod "a" [crashLooping]) ∧
      detectPod anyNameFilters (sidecarPod "a" [crashLooping]) = true) :=
  ⟨⟨by decide,
      (detectPod_fields_conjunction scenarioFilters (sidecarPod "a" [crashLooping])).2.1
        false true false true (by decide)⟩,
    by decide, by decide,
    ⟨(detectPod_fields_conjunction anyNameFilters (sidecarPod "a" [crashLooping])).2.2.2.1 rfl
        (fun _ => "renamed"),
      by decide⟩⟩

/-! ## Theorems about the per-pod actions -/

theorem detectPod_SetLabels (f : Filters) (pod : Pod) (labels : GoMap) :
    detectPod f (pod.SetLabels labels) = detectPod f pod := by
  simp [detectPod_eq, Pod.SetLabels]

theorem GoMap.get_set (m : GoMap) (k v k1 : String) :
    GoMap.get (some (GoMap.set m k v)) k1 =
      if k1 = k then some v else GoMap.get (some m) k1 := by
  induction m with
  | nil =>
    by_cases h : k1 = k
    · simp [GoMap.get, GoMap.set, h]
    · have h1 : ¬ k = k1 := fun e => h e.symm
      simp [GoMap.get, GoMap.set, h, h1]
  | cons e m ih =>
    simp only [GoMap.get] at ih
    by_cases he : e.1 = k
    · have hb : (e.1 == k) = true := by simp [he]
      by_cases h : k1 = k
      · simp [GoMap.get, GoMap.set, hb, h]
      · have h1 : (k == k1) = false := by simpa using fun e1 : k = k1 => h e1.symm
        have h2 : (e.1 == k1) = false := by rw [he]; exact h1
        simp [GoMap.get, GoMap.set, hb, h, h1, h2, List.find?_cons]
    · have hb : (e.1 == k) = false := by simp [he]
      by_cases h1 : e.1 = k1
      · have h : ¬ k1 = k := fun e1 => he (h1.trans e1)
        have h2 : (e.1 == k1) = true := by simp [h1]
        simp [GoMap.get, GoMap.set, hb, h, h2, List.find?_cons]
      · have h2 : (e.1 == k1) = false := by simp [h1]
        simp only [GoMap.get, GoMap.set, hb, Bool.false_eq_true, if_false, List.find?_cons, h2]
        exact ih

theorem GoMap.has_set (m : GoMap) (k v : String) :
    GoMap.has (some (GoMap.set m k v)) k = true := by
  induction m with
  | nil => simp [GoMap.has, GoMap.set]
  | cons e m ih =>
    by_cases he : e.1 = k
    · simp [GoMap.has, GoMap.set, he]
    · have hb : (e.1 == k) = false := by simp [he]
      simp only [GoMap.has] at ih
      simp only [GoMap.has, GoMap.set, hb, Bool.false_eq_true, if_false, List.any_cons,
        Bool.false_or]
      exact ih

/-- C8: on a pod that `detectPod` rejects, `labelBrokenPod` and
`deleteBrokenPod` issue no call on the pod store, leave its state unchanged and
return a nil error. -/
theorem actions_skip_pod_not_broken {σ : Type} (bpr : brokenPodReconciler σ) (pod : Pod)
    (w : World σ) (h : detectPod bpr.Filters pod = false) :
    ((labelBrokenPod bpr pod w).1.calls = w.calls ∧
      (labelBrokenPod bpr pod w).1.store = w.store ∧
      (labelBrokenPod bpr pod w).2 = none) ∧
    ((deleteBrokenPod bpr pod w).1.calls = w.calls ∧
      (deleteBrokenPod bpr pod w).1.store = w.store ∧
      (deleteBrokenPod bpr pod w).2 = none) := by
  have hlabel : labelBrokenPod bpr pod w = (w.Increment .labelType .resultSkip, none) := by
    simp [labelBrokenPod, h]
  have hdelete : deleteBrokenPod bpr pod w = (w.Increment .deleteType .resultSkip, none) := by
    simp [deleteBrokenPod, h]
  rw [hlabel, hdelete]
  exact ⟨⟨rfl, rfl, rfl⟩, ⟨rfl, rfl, rfl⟩⟩

/-- The pod of Scenario B is stored and not broken: neither action touches
the store. -/
theorem actions_skip_pod_not_broken_witness :
    ((labelBrokenPod ⟨memoryClient, scenarioFilters, labelOptions⟩
          (sidecarPod "b" [exitedCleanly]) (freshWorld [sidecarPod "b" [exitedCleanly]])).1.calls
        = [] ∧
      (labelBrokenPod ⟨memoryClient, scenarioFilters, labelOptions⟩
          (sidecarPod "b" [exitedCleanly]) (freshWorld [sidecarPod "b" [exitedCleanly]])).1.store
        = [sidecarPod "b" [exitedCleanly]] ∧
      (labelBrokenPod ⟨memoryClient, scenarioFilters, labelOptions⟩
          (sidecarPod "b" [exitedCleanly]) (freshWorld [sidecarPod "b" [exitedCleanly]])).2
        = none) ∧
    ((deleteBrokenPod ⟨memoryClient, scenarioFilters, labelOptions⟩
          (sidecarPod "b" [exitedCleanly]) (freshWorld [sidecarPod "b" [exitedCleanly]])).1.calls
        = [] ∧
      (deleteBrokenPod ⟨memoryClient, scenarioFilters, labelOptions⟩
          (sidecarPod "b" [exitedCleanly]) (freshWorld [sidecarPod "b" [exitedCleanly]])).1.store
        = [sidecarPod "b" [exitedCleanly]] ∧
      (deleteBrokenPod ⟨memoryClient, scenarioFilters, labelOptions⟩
          (sidecarPod "b" [exitedCleanly]) (freshWorld [sidecarPod "b" [exitedCleanly]])).2
        = none) :=
  actions_skip_pod_not_broken ⟨memoryClient, scenarioFilters, labelOptions⟩
    (sidecarPod "b" [exitedCleanly]) (freshWorld [sidecarPod "b" [exitedCleanly]]) (by decide)

/-- C9: on a pod whose labels already contain `Options.PodLabelKey`, with any
value, `labelBrokenPod` issues no call on the pod store, leaves its state (and
so the existing value) unchanged and returns a nil error; in particular the
pod that a first call has just sent to `Update` is skipped by a second call. -/
theorem labelBrokenPod_skips_labeled {σ : Type} (bpr : brokenPodReconciler σ) (pod : Pod)
    (w : World σ) (h : GoMap.has pod.GetLabels bpr.Options.PodLabelKey = true) :
    ((labelBrokenPod bpr pod w).1.calls = w.calls ∧
      (labelBrokenPod bpr pod w).1.store = w.store ∧
      (labelBrokenPod bpr pod w).2 = none) ∧
    (∀ (m : GoMap) (w1 : World σ),
      (labelBrokenPod bpr
          (pod.SetLabels (GoMap.set m bpr.Options.PodLabelKey bpr.Options.PodLabelValue))
          w1).1.calls = w1.calls ∧
      (labelBrokenPod bpr
          (pod.SetLabels (GoMap.set m bpr.Options.PodLabelKey bpr.Options.PodLabelValue))
          w1).1.store = w1.store ∧
      (labelBrokenPod bpr
          (pod.SetLabels (GoMap.set m bpr.Options.PodLabelKey bpr.Options.PodLabelValue))
          w1).2 = none) := by
  constructor
  · cases hd : detectPod bpr.Filters pod <;>
      simp [labelBrokenPod, hd, h, World.Increment]
  · intro m w1
    have hs : GoMap.has (pod.SetLabels (GoMap.set m bpr.Options.PodLabelKey
        bpr.Options.PodLabelValue)).GetLabels bpr.Options.PodLabelKey = true :=
      GoMap.has_set m _ _
    cases hd : detectPod bpr.Filters (pod.SetLabels (GoMap.set m bpr.Options.PodLabelKey
        bpr.Options.PodLabelValue)) <;>
      simp [labelBrokenPod, hd, hs, World.Increment]

/-- A broken pod that carries the label key with another value than the
configured one is left as it is. -/
theorem labelBrokenPod_skips_labeled_witness :
    (labelBrokenPod ⟨memoryClient, scenarioFilters, labelOptions⟩
        ⟨⟨"a", "default", some [("cni.istio.io/uninitialized", "no")],
          some [("sidecar.istio.io/status", "injected")]⟩, ⟨[crashLooping]⟩⟩
        (freshWorld [])).1.calls = [] ∧
    detectPod scenarioFilters
        ⟨⟨"a", "default", some [("cni.istio.io/uninitialized", "no")],
          some [("sidecar.istio.io/status", "injected")]⟩, ⟨[crashLooping]⟩⟩ = true :=
  ⟨(labelBrokenPod_skips_labeled ⟨memoryClient, scenarioFilters, labelOptions⟩
      ⟨⟨"a", "default", some [("cni.istio.io/uninitialized", "no")],
        some [("sidecar.istio.io/status", "injected")]⟩, ⟨[crashLooping]⟩⟩
      (freshWorld []) (by decide)).1.1,
    by decide⟩

/-- C10: on a broken pod whose labels (nil or not) lack `Options.PodLabelKey`,
`labelBrokenPod` issues exactly one call on the pod store, an `Update` in the
namespace of the pod, with a pod that has the same name, namespace,
annotations and status and whose labels are those of the pod plus
`PodLabelKey -> PodLabelValue`; the store moves as that `Update` moves it, and
the result is the error of the `Update` when it fails and nil when it
succeeds. -/
theorem labelBrokenPod_updates {σ : Type} (bpr : brokenPodReconciler σ) (pod : Pod)
    (w : World σ) (hbroken : detectPod bpr.Filters pod = true)
    (hfree : GoMap.has pod.GetLabels bpr.Options.PodLabelKey = false) :
    ∃ labeled : Pod,
      (labelBrokenPod bpr pod w).1.calls = w.calls ++ [StoreCall.Update pod.Namespace labeled] ∧
      labeled.Name = pod.Name ∧ labeled.Namespace = pod.Namespace ∧
      labeled.ObjectMeta.Annotations = pod.ObjectMeta.Annotations ∧
      labeled.Status = pod.Status ∧
      labeled.ObjectMeta.Labels ≠ none ∧
      (∀ k, GoMap.get labeled.ObjectMeta.Labels k =
        if k = bpr.Options.PodLabelKey then some bpr.Options.PodLabelValue
        else GoMap.get pod.ObjectMeta.Labels k) ∧
      (labelBrokenPod bpr pod w).1.store =
        (bpr.client.podsUpdate w.store pod.Namespace labeled).1 ∧
      (∀ e, (bpr.client.podsUpdate w.store pod.Namespace labeled).2 = .error e →
        (labelBrokenPod bpr pod w).2 = some e) ∧
      (∀ u, (bpr.client.podsUpdate w.store pod.Namespace labeled).2 = .ok u →
        (labelBrokenPod bpr pod w).2 = none) := by
  cases hlabels : pod.ObjectMeta.Labels with
  | none =>
    refine ⟨pod.SetLabels (GoMap.set [] bpr.Options.PodLabelKey bpr.Options.PodLabelValue),
      ?_, rfl, rfl, rfl, rfl, by simp [Pod.SetLabels], ?_, ?_, ?_, ?_⟩
    · cases hres : (bpr.client.podsUpdate w.store pod.Namespace (pod.SetLabels
          (GoMap.set [] bpr.Options.PodLabelKey bpr.Options.PodLabelValue))).2 <;>
        simp_all [labelBrokenPod, Pod.GetLabels, brokenPodReconciler.Update, World.Increment,
          Pod.SetLabels]
    · intro k
      simp only [Pod.SetLabels, GoMap.get_set]
      rfl
    · cases hres : (bpr.client.podsUpdate w.store pod.Namespace (pod.SetLabels
          (GoMap.set [] bpr.Options.PodLabelKey bpr.Options.PodLabelValue))).2 <;>
        simp_all [labelBrokenPod, Pod.GetLabels, brokenPodReconciler.Update, World.Increment,
          Pod.SetLabels]
    · intro e he
      simp_all [labelBrokenPod, Pod.GetLabels, brokenPodReconciler.Update, World.Increment,
        Pod.SetLabels]
    · intro u hu
      simp_all [labelBrokenPod, Pod.GetLabels, brokenPodReconciler.Update, World.Increment,
        Pod.SetLabels]
  | some m =>
    refine ⟨pod.SetLabels (GoMap.set m bpr.Options.PodLabelKey bpr.Options.PodLabelValue),
      ?_, rfl, rfl, rfl, rfl, by simp [Pod.SetLabels], ?_, ?_, ?_, ?_⟩
    · cases hres : (bpr.client.podsUpdate w.store pod.Namespace (pod.SetLabels
          (GoMap.set m bpr.Options.PodLabelKey bpr.Options.PodLabelValue))).2 <;>
        simp_all [labelBrokenPod, Pod.GetLabels, brokenPodReconciler.Update, World.Increment,
          Pod.SetLabels]
    · intro k
      simp only [Pod.SetLabels, GoMap.get_set]
    · cases hres : (bpr.client.podsUpdate w.store pod.Namespace (pod.SetLabels
          (GoMap.set m bpr.Options.PodLabelKey bpr.Options.PodLabelValue))).2 <;>
        simp_all [labelBrokenPod, Pod.GetLabels, brokenPodReconciler.Update, World.Increment,
          Pod.SetLabels]
    · intro e he
      simp_all [labelBrokenPod, Pod.GetLabels, brokenPodReconciler.Update, World.Increment,
        Pod.SetLabels]
    · intro u hu
      simp_all [labelBrokenPod, Pod.GetLabels, brokenPodReconciler.Update, World.Increment,
        Pod.SetLabels]

/-- The pod of Scenario A has no labels: against the in-memory store it gets
the configured label through one `Update` and the result is nil; against the
unreachable store the error of the `Update` is the result. -/
theorem labelBrokenPod_updates_witness :
    (∃ labeled : Pod,
      (labelBrokenPod ⟨memoryClient, scenarioFilters, labelOptions⟩ (sidecarPod "a" [crashLooping])
        (freshWorld [sidecarPod "a" [crashLooping]])).1.calls =
          [StoreCall.Update "default" labeled] ∧
      GoMap.get labeled.ObjectMeta.Labels "cni.istio.io/uninitialized" = some "true" ∧
      (labelBrokenPod ⟨memoryClient, scenarioFilters, labelOptions⟩ (sidecarPod "a" [crashLooping])
        (freshWorld [sidecarPod "a" [crashLooping]])).2 = none) ∧
    (labelBrokenPod ⟨unreachableClient, scenarioFilters, labelOptions⟩
      (sidecarPod "a" [crashLooping]) (freshWorld ())).2 = some "connection refused" := by
  constructor
  · obtain ⟨labeled, hcalls, _, _, _, _, _, hlabels, _, _, hok⟩ :=
      labelBrokenPod_updates ⟨memoryClient, scenarioFilters, labelOptions⟩
        (sidecarPod "a" [crashLooping]) (freshWorld [sidecarPod "a" [crashLooping]])
        (by decide) (by decide)
    refine ⟨labeled, hcalls, ?_, ?_⟩
    · rw [hlabels]
      exact if_pos rfl
    · have hpod : labeled = (sidecarPod "a" [crashLooping]).SetLabels
          [("cni.istio.io/uninitialized", "true")] := by
        have h1 : (labelBrokenPod ⟨memoryClient, scenarioFilters, labelOptions⟩
            (sidecarPod "a" [crashLooping]) (freshWorld [sidecarPod "a" [crashLooping]])).1.calls =
            [StoreCall.Update "default" ((sidecarPod "a" [crashLooping]).SetLabels
              [("cni.istio.io/uninitialized", "true")])] := by decide
        rw [h1] at hcalls
        simp only [freshWorld, List.nil_append, List.cons.injEq, StoreCall.Update.injEq,
          and_true, true_and] at hcalls
        exact hcalls.2.symm
      subst hpod
      exact hok ((sidecarPod "a" [crashLooping]).SetLabels
        [("cni.istio.io/uninitialized", "true")]) rfl
  · obtain ⟨labeled, _, _, _, _, _, _, _, _, herr, _⟩ :=
      labelBrokenPod_updates ⟨unreachableClient, scenarioFilters, labelOptions⟩
        (sidecarPod "a" [crashLooping]) (freshWorld ()) (by decide) (by decide)
    exact herr "connection refused" rfl

/-! ## Theorems about `deleteBrokenPod` and `ReconcilePod` -/

theorem labelBrokenPod_calls {σ : Type} (bpr : brokenPodReconciler σ) (pod : Pod) (w : World σ) :
    (labelBrokenPod bpr pod w).1.calls = w.calls ∨
      ∃ labeled, (labelBrokenPod bpr pod w).1.calls =
        w.calls ++ [StoreCall.Update pod.Namespace labeled] := by
  by_cases hd : detectPod bpr.Filters pod = true
  · by_cases hh : GoMap.has pod.GetLabels bpr.Options.PodLabelKey = true
    · left
      simp [labelBrokenPod, hd, hh, World.Increment]
    · right
      refine ⟨pod.SetLabels (GoMap.set (match pod.GetLabels with
        | none => []
        | some m => m) bpr.Options.PodLabelKey bpr.Options.PodLabelValue), ?_⟩
      cases hres : (bpr.client.podsUpdate w.store pod.Namespace (pod.SetLabels (GoMap.set
          (match pod.GetLabels with
            | none => []
            | some m => m) bpr.Options.PodLabelKey bpr.Options.PodLabelValue))).2 <;>
        simp_all [labelBrokenPod, brokenPodReconciler.Update, World.Increment, Pod.SetLabels]
  · left
    simp [labelBrokenPod, hd, World.Increment]

theorem deleteBrokenPod_calls {σ : Type} (bpr : brokenPodReconciler σ) (pod : Pod)
    (w : World σ) :
    (deleteBrokenPod bpr pod w).1.calls = w.calls ∨
      (deleteBrokenPod bpr pod w).1.calls =
        w.calls ++ [StoreCall.Delete pod.Namespace pod.Name] := by
  unfold deleteBrokenPod
  split
  · exact Or.inl rfl
  · right
    split <;> rename_i heq <;>
      simp only [brokenPodReconciler.Delete, Prod.mk.injEq] at heq <;>
      obtain ⟨hw, _⟩ := heq <;> subst hw <;> rfl

/-- C11: on a broken pod `deleteBrokenPod` issues exactly one call on the pod
store, a `Delete` for the namespace and name of the pod (so no `Update`); the
store moves as that `Delete` moves it and the result is the result of the
`Delete`: its error, unchanged, when it fails and nil when it succeeds. -/
theorem deleteBrokenPod_deletes {σ : Type} (bpr : brokenPodReconciler σ) (pod : Pod)
    (w : World σ) (hbroken : detectPod bpr.Filters pod = true) :
    (deleteBrokenPod bpr pod w).1.calls =
        w.calls ++ [StoreCall.Delete pod.Namespace pod.Name] ∧
    (deleteBrokenPod bpr pod w).1.store =
        (bpr.client.podsDelete w.store pod.Namespace pod.Name).1 ∧
    (deleteBrokenPod bpr pod w).2 =
        (bpr.client.podsDelete w.store pod.Namespace pod.Name).2 := by
  cases hres : (bpr.client.podsDelete w.store pod.Namespace pod.Name).2 with
  | none =>
    simp [deleteBrokenPod, hbroken, brokenPodReconciler.Delete, hres, World.Increment]
  | some err =>
    simp [deleteBrokenPod, hbroken, brokenPodReconciler.Delete, hres, World.Increment]

/-- The pod of Scenario A is deleted from the in-memory store by one `Delete`
with a nil result; against the unreachable store the error of the `Delete` is
the result. -/
theorem deleteBrokenPod_deletes_witness :
    ((deleteBrokenPod ⟨memoryClient, scenarioFilters, deleteOptions⟩
        (sidecarPod "a" [crashLooping]) (freshWorld [sidecarPod "a" [crashLooping]])).1.calls =
        [StoreCall.Delete "default" "a"] ∧
      (deleteBrokenPod ⟨memoryClient, scenarioFilters, deleteOptions⟩
        (sidecarPod "a" [crashLooping]) (freshWorld [sidecarPod "a" [crashLooping]])).1.store =
        [] ∧
      (deleteBrokenPod ⟨memoryClient, scenarioFilters, deleteOptions⟩
        (sidecarPod "a" [crashLooping]) (freshWorld [sidecarPod "a" [crashLooping]])).2 =
        none) ∧
    (deleteBrokenPod ⟨unreachableClient, scenarioFilters, deleteOptions⟩
      (sidecarPod "a" [crashLooping]) (freshWorld ())).2 = some "connection refused" :=
  ⟨deleteBrokenPod_deletes ⟨memoryClient, scenarioFilters, deleteOptions⟩
      (sidecarPod "a" [crashLooping]) (freshWorld [sidecarPod "a" [crashLooping]]) (by decide),
    (deleteBrokenPod_deletes ⟨unreachableClient, scenarioFilters, deleteOptions⟩
      (sidecarPod "a" [crashLooping]) (freshWorld ()) (by decide)).2.2⟩

/-- C12: `ReconcilePod` dispatches on the options. With `DeletePods` it is
`deleteBrokenPod` (same world, same result) and issues no `Update`, also when
`LabelPods` is set; otherwise with `LabelPods` it is `labelBrokenPod`;
otherwise it changes nothing and returns nil. In every case it issues at most
one call on the pod store, an `Update` or a `Delete`. -/
theorem ReconcilePod_dispatch {σ : Type} (bpr : brokenPodReconciler σ) (pod : Pod)
    (w : World σ) :
    (bpr.Options.DeletePods = true →
      ReconcilePod bpr pod w = deleteBrokenPod bpr pod w ∧
      ∀ ns p, StoreCall.Update ns p ∈ (ReconcilePod bpr pod w).1.calls →
        StoreCall.Update ns p ∈ w.calls) ∧
    (bpr.Options.DeletePods = false → bpr.Options.LabelPods = true →
      ReconcilePod bpr pod w = labelBrokenPod bpr pod w) ∧
    (bpr.Options.DeletePods = false → bpr.Options.LabelPods = false →
      ReconcilePod bpr pod w = (w, none)) ∧
    ((ReconcilePod bpr pod w).1.calls = w.calls ∨
      (∃ labeled, (ReconcilePod bpr pod w).1.calls =
        w.calls ++ [StoreCall.Update pod.Namespace labeled]) ∨
      (ReconcilePod bpr pod w).1.calls =
        w.calls ++ [StoreCall.Delete pod.Namespace pod.Name]) := by
  have happend : ∀ e : Option Error, multierr.Append none e = e := by
    intro e
    cases e <;> rfl
  refine ⟨?_, ?_, ?_, ?_⟩
  · intro hd
    have heq : ReconcilePod bpr pod w = deleteBrokenPod bpr pod w := by
      simp [ReconcilePod, hd, happend]
    refine ⟨heq, ?_⟩
    intro ns p hmem
    rw [heq] at hmem
    rcases deleteBrokenPod_calls bpr pod w with h | h
    · rwa [h] at hmem
    · rw [h] at hmem
      simpa using hmem
  · intro hd hl
    simp [ReconcilePod, hd, hl, happend]
  · intro hd hl
    simp [ReconcilePod, hd, hl]
  · cases hd : bpr.Options.DeletePods with
    | true =>
      have heq : ReconcilePod bpr pod w = deleteBrokenPod bpr pod w := by
        simp [ReconcilePod, hd, happend]
      rw [heq]
      rcases deleteBrokenPod_calls bpr pod w with h | h
      · exact Or.inl h
      · exact Or.inr (Or.inr h)
    | false =>
      cases hl : bpr.Options.LabelPods with
      | true =>
        have heq : ReconcilePod bpr pod w = labelBrokenPod bpr pod w := by
          simp [ReconcilePod, hd, hl, happend]
        rw [heq]
        rcases labelBrokenPod_calls bpr pod w with h | h
        · exact Or.inl h
        · exact Or.inr (Or.inl h)
      | false =>
        left
        simp [ReconcilePod, hd, hl]

/-- With both options set, reconciling the unlabeled pod of Scenario A issues
the one `Delete` and no `Update`. -/
theorem ReconcilePod_dispatch_witness :
    ReconcilePod ⟨memoryClient, scenarioFilters, labelAndDeleteOptions⟩
        (sidecarPod "a" [crashLooping]) (freshWorld [sidecarPod "a" [crashLooping]]) =
      deleteBrokenPod ⟨memoryClient, scenarioFilters, labelAndDeleteOptions⟩
        (sidecarPod "a" [crashLooping]) (freshWorld [sidecarPod "a" [crashLooping]]) ∧
    (ReconcilePod ⟨memoryClient, scenarioFilters, labelAndDeleteOptions⟩
        (sidecarPod "a" [crashLooping]) (freshWorld [sidecarPod "a" [crashLooping]])).1.calls =
      [StoreCall.Delete "default" "a"] :=
  ⟨((ReconcilePod_dispatch ⟨memoryClient, scenarioFilters, labelAndDeleteOptions⟩
      (sidecarPod "a" [crashLooping]) (freshWorld [sidecarPod "a" [crashLooping]])).1 rfl).1,
    by decide⟩

/-! ## Theorems about listing and the bulk operations -/

theorem ListBrokenPods_loop_eq (f : Filters) (items raw : List Pod) :
    ListBrokenPods.loop f items raw = items ++ raw.filter (detectPod f) := by
  induction raw generalizing items with
  | nil => simp [ListBrokenPods.loop]
  | cons pod rest ih =>
    by_cases h : detectPod f pod = true
    · simp [ListBrokenPods.loop, h, ih]
    · simp [ListBrokenPods.loop, h, ih]

theorem ListBrokenPods_ok {σ : Type} (bpr : brokenPodReconciler σ) (w : World σ)
    (raw : List Pod)
    (h : (bpr.client.podsList w.store "" bpr.Filters.LabelSelectors
      bpr.Filters.FieldSelectors).2 = .ok raw) :
    ListBrokenPods bpr w =
      (⟨(bpr.client.podsList w.store "" bpr.Filters.LabelSelectors
          bpr.Filters.FieldSelectors).1,
        w.calls ++ [StoreCall.List "" bpr.Filters.LabelSelectors bpr.Filters.FieldSelectors],
        w.metrics⟩,
        ⟨some (raw.filter (detectPod bpr.Filters))⟩, none) := by
  simp [ListBrokenPods, brokenPodReconciler.List, h, ListBrokenPods_loop_eq]

theorem ListBrokenPods_error {σ : Type} (bpr : brokenPodReconciler σ) (w : World σ)
    (e : Error)
    (h : (bpr.client.podsList w.store "" bpr.Filters.LabelSelectors
      bpr.Filters.FieldSelectors).2 = .error e) :
    ListBrokenPods bpr w =
      (⟨(bpr.client.podsList w.store "" bpr.Filters.LabelSelectors
          bpr.Filters.FieldSelectors).1,
        w.calls ++ [StoreCall.List "" bpr.Filters.LabelSelectors bpr.Filters.FieldSelectors],
        w.metrics⟩,
        ⟨none⟩, some e) := by
  simp [ListBrokenPods, brokenPodReconciler.List, h]

/-- C14: `ListBrokenPods` issues one `List` on the pod store, over all
namespaces (the empty namespace) and with the configured label and field
selector strings. When it succeeds with the pods `raw`, the result is a nil
error and the non-nil list of the pods of `raw` on which `detectPod` is true,
in their order in `raw`; when it fails, the result is its error. -/
theorem ListBrokenPods_spec {σ : Type} (bpr : brokenPodReconciler σ) (w : World σ) :
    (ListBrokenPods bpr w).1.calls =
      w.calls ++ [StoreCall.List "" bpr.Filters.LabelSelectors bpr.Filters.FieldSelectors] ∧
    (∀ raw, (bpr.client.podsList w.store "" bpr.Filters.LabelSelectors
        bpr.Filters.FieldSelectors).2 = .ok raw →
      (ListBrokenPods bpr w).2.2 = none ∧
      (ListBrokenPods bpr w).2.1.Items = some (raw.filter (detectPod bpr.Filters)) ∧
      (∃ pods, (ListBrokenPods bpr w).2.1.Items = some pods ∧ pods.Sublist raw ∧
        ∀ p, p ∈ pods ↔ p ∈ raw ∧ detectPod bpr.Filters p = true)) ∧
    (∀ e, (bpr.client.podsList w.store "" bpr.Filters.LabelSelectors
        bpr.Filters.FieldSelectors).2 = .error e →
      (ListBrokenPods bpr w).2.2 = some e) := by
  refine ⟨?_, ?_, ?_⟩
  · cases h : (bpr.client.podsList w.store "" bpr.Filters.LabelSelectors
        bpr.Filters.FieldSelectors).2 with
    | ok raw => rw [ListBrokenPods_ok bpr w raw h]
    | error e => rw [ListBrokenPods_error bpr w e h]
  · intro raw h
    rw [ListBrokenPods_ok bpr w raw h]
    refine ⟨rfl, rfl, raw.filter (detectPod bpr.Filters), rfl, List.filter_sublist raw, ?_⟩
    intro p
    exact List.mem_filter
  · intro e h
    rw [ListBrokenPods_error bpr w e h]

/-- Scenario C: over the stored pods A (healthy), B (crash-looping) and C
(exited cleanly) the result is the list with B alone; and when nothing
matches the list is empty, not nil. -/
theorem ListBrokenPods_spec_witness :
    (ListBrokenPods ⟨memoryClient, scenarioFilters, labelOptions⟩
      (freshWorld [healthyPod "A", sidecarPod "B" [crashLooping],
        sidecarPod "C" [exitedCleanly]])).2 = (⟨some [sidecarPod "B" [crashLooping]]⟩, none) ∧
    (ListBrokenPods ⟨memoryClient, scenarioFilters, labelOptions⟩
      (freshWorld [healthyPod "A"])).2.1.Items = some [] :=
  ⟨Prod.ext
      (congrArg PodList.mk ((ListBrokenPods_spec ⟨memoryClient, scenarioFilters, labelOptions⟩
        (freshWorld [healthyPod "A", sidecarPod "B" [crashLooping],
          sidecarPod "C" [exitedCleanly]])).2.1 _ rfl).2.1)
      ((ListBrokenPods_spec ⟨memoryClient, scenarioFilters, labelOptions⟩
        (freshWorld [healthyPod "A", sidecarPod "B" [crashLooping],
          sidecarPod "C" [exitedCleanly]])).2.1 _ rfl).1,
    by decide⟩

theorem multierr.Append_eq_none (a b : Option Error) :
    multierr.Append a b = none ↔ a = none ∧ b = none := by
  cases a <;> cases b <;> simp [multierr.Append]

theorem LabelBrokenPods_loop_eq {σ : Type} (bpr : brokenPodReconciler σ) (pods : List Pod)
    (w : World σ) (err : Option Error) :
    (LabelBrokenPods.loop bpr pods w err).1 = (applyToEach (labelBrokenPod bpr) pods w).1 ∧
    ((LabelBrokenPods.loop bpr pods w err).2 = none ↔
      err = none ∧ ∀ r ∈ (applyToEach (labelBrokenPod bpr) pods w).2, r = none) := by
  induction pods generalizing w err with
  | nil => simp [LabelBrokenPods.loop, applyToEach]
  | cons pod rest ih =>
    obtain ⟨h1, h2⟩ := ih (labelBrokenPod bpr pod w).1
      (multierr.Append err (labelBrokenPod bpr pod w).2)
    refine ⟨by simpa [LabelBrokenPods.loop, applyToEach] using h1, ?_⟩
    rw [LabelBrokenPods.loop, h2, multierr.Append_eq_none]
    simp only [applyToEach, List.mem_cons, forall_eq_or_imp]
    exact and_assoc

theorem DeleteBrokenPods_loop_eq {σ : Type} (bpr : brokenPodReconciler σ) (pods : List Pod)
    (w : World σ) (loopErrors : List Error) :
    DeleteBrokenPods.loop bpr pods w loopErrors =
      ((applyToEach (deleteBrokenPod bpr) pods w).1,
        loopErrors ++ failures (applyToEach (deleteBrokenPod bpr) pods w).2) := by
  induction pods generalizing w loopErrors with
  | nil => simp [DeleteBrokenPods.loop, applyToEach, failures]
  | cons pod rest ih =>
    rw [DeleteBrokenPods.loop]
    cases hres : (deleteBrokenPod bpr pod w).2 with
    | none => simp [ih, applyToEach, failures, hres]
    | some err => simp [ih, applyToEach, failures, hres]

theorem failures_eq_nil (results : List (Option Error)) :
    failures results = [] ↔ ∀ r ∈ results, r = none := by
  induction results with
  | nil => simp [failures]
  | cons r rest ih =>
    cases r with
    | none => simp [failures]
    | some e => simp [failures]

theorem DeleteBrokenPods.join_eq (first : String) (others : List Error) :
    DeleteBrokenPods.join first others = String.intercalate "," (first :: others) := by
  have hgo : ∀ (rest : List Error) (acc : String),
      DeleteBrokenPods.join acc rest = String.intercalate.go acc "," rest := by
    intro rest
    induction rest with
    | nil => intro acc; rfl
    | cons e rest ih =>
      intro acc
      rw [DeleteBrokenPods.join, String.intercalate.go, ih]
  rw [String.intercalate, hgo]

theorem DeleteBrokenPods.join_contains (first : String) (others : List Error) :
    (∃ post, DeleteBrokenPods.join first others = first ++ post) ∧
    ∀ m ∈ others, ∃ pre post, DeleteBrokenPods.join first others = pre ++ m ++ post := by
  induction others generalizing first with
  | nil => exact ⟨⟨"", (String.append_empty first).symm⟩, by simp⟩
  | cons e rest ih =>
    obtain ⟨⟨post, hpost⟩, hrest⟩ := ih (first ++ "," ++ e)
    rw [DeleteBrokenPods.join]
    refine ⟨⟨"," ++ e ++ post, ?_⟩, ?_⟩
    · rw [hpost]
      simp only [String.append_assoc]
    · intro m hm
      rcases List.mem_cons.1 hm with rfl | hmem
      · exact ⟨first ++ ",", post, hpost⟩
      · exact hrest m hmem

theorem LabelBrokenPods_ok {σ : Type} (bpr : brokenPodReconciler σ) (w : World σ)
    (raw : List Pod)
    (h : (bpr.client.podsList w.store "" bpr.Filters.LabelSelectors
      bpr.Filters.FieldSelectors).2 = .ok raw) :
    LabelBrokenPods bpr w =
      LabelBrokenPods.loop bpr (ListBrokenPods bpr w).2.1.range (ListBrokenPods bpr w).1 none := by
  rw [LabelBrokenPods, ListBrokenPods_ok bpr w raw h]

theorem DeleteBrokenPods_ok {σ : Type} (bpr : brokenPodReconciler σ) (w : World σ)
    (raw : List Pod)
    (h : (bpr.client.podsList w.store "" bpr.Filters.LabelSelectors
      bpr.Filters.FieldSelectors).2 = .ok raw) :
    DeleteBrokenPods bpr w =
      ((applyToEach (deleteBrokenPod bpr) (ListBrokenPods bpr w).2.1.range
          (ListBrokenPods bpr w).1).1,
        match failures (applyToEach (deleteBrokenPod bpr) (ListBrokenPods bpr w).2.1.range
            (ListBrokenPods bpr w).1).2 with
        | [] => none
        | first :: others => some (DeleteBrokenPods.join first others)) := by
  rw [DeleteBrokenPods, ListBrokenPods_ok bpr w raw h]
  simp only [DeleteBrokenPods_loop_eq, List.nil_append]
  split <;> rename_i heq <;> simp only [Prod.mk.injEq] at heq <;>
    obtain ⟨hw, hf⟩ := heq <;> rw [← hw, hf]

/-- C15: when the `List` of the store succeeds, `LabelBrokenPods` leaves the
world that running `labelBrokenPod` on every pod returned by `ListBrokenPods`
leaves, in list order, each run starting where the previous one ended whether
it failed or not, and `DeleteBrokenPods` does the same with `deleteBrokenPod`;
the error returned is non-nil exactly when at least one of these runs
returned an error. -/
theorem bulk_operations_run_every_pod {σ : Type} (bpr : brokenPodReconciler σ) (w : World σ)
    (raw : List Pod)
    (hlist : (bpr.client.podsList w.store "" bpr.Filters.LabelSelectors
      bpr.Filters.FieldSelectors).2 = .ok raw) :
    ((LabelBrokenPods bpr w).1 =
        (applyToEach (labelBrokenPod bpr) (ListBrokenPods bpr w).2.1.range
          (ListBrokenPods bpr w).1).1 ∧
      ((LabelBrokenPods bpr w).2 ≠ none ↔
        ∃ r ∈ (applyToEach (labelBrokenPod bpr) (ListBrokenPods bpr w).2.1.range
          (ListBrokenPods bpr w).1).2, r ≠ none)) ∧
    ((DeleteBrokenPods bpr w).1 =
        (applyToEach (deleteBrokenPod bpr) (ListBrokenPods bpr w).2.1.range
          (ListBrokenPods bpr w).1).1 ∧
      ((DeleteBrokenPods bpr w).2 ≠ none ↔
        ∃ r ∈ (applyToEach (deleteBrokenPod bpr) (ListBrokenPods bpr w).2.1.range
          (ListBrokenPods bpr w).1).2, r ≠ none)) := by
  constructor
  · rw [LabelBrokenPods_ok bpr w raw hlist]
    obtain ⟨h1, h2⟩ := LabelBrokenPods_loop_eq bpr (ListBrokenPods bpr w).2.1.range
      (ListBrokenPods bpr w).1 none
    refine ⟨h1, ?_⟩
    rw [Ne, h2]
    simp
  · rw [DeleteBrokenPods_ok bpr w raw hlist]
    refine ⟨rfl, ?_⟩
    have hnil := failures_eq_nil (applyToEach (deleteBrokenPod bpr)
      (ListBrokenPods bpr w).2.1.range (ListBrokenPods bpr w).1).2
    cases hf : failures (applyToEach (deleteBrokenPod bpr)
        (ListBrokenPods bpr w).2.1.range (ListBrokenPods bpr w).1).2 with
    | nil =>
      rw [hf] at hnil
      have hall := hnil.1 rfl
      simp only [ne_eq, not_true_eq_false, false_iff, not_exists, not_and, not_not]
      exact hall
    | cons first others =>
      rw [hf] at hnil
      simp only [ne_eq, reduceCtorEq, not_false_eq_true, true_iff]
      by_contra hno
      have hall : ∀ r ∈ (applyToEach (deleteBrokenPod bpr)
          (ListBrokenPods bpr w).2.1.range (ListBrokenPods bpr w).1).2, r = none := by
        intro r hr
        by_contra hne
        exact hno ⟨r, hr, hne⟩
      exact absurd (hnil.2 hall) (by simp)

/-- Two crash-looping pods are stored and the first is protected: its `Delete`
fails, the second pod is deleted all the same, and the error is non-nil. -/
theorem bulk_operations_run_every_pod_witness :
    (DeleteBrokenPods ⟨protectedClient ["a"], scenarioFilters, deleteOptions⟩
      (freshWorld [sidecarPod "a" [crashLooping], sidecarPod "b" [crashLooping]])).1.store =
        [sidecarPod "a" [crashLooping]] ∧
    (DeleteBrokenPods ⟨protectedClient ["a"], scenarioFilters, deleteOptions⟩
      (freshWorld [sidecarPod "a" [crashLooping], sidecarPod "b" [crashLooping]])).1.calls =
        [StoreCall.List "" "" "", StoreCall.Delete "default" "a",
          StoreCall.Delete "default" "b"] ∧
    (DeleteBrokenPods ⟨protectedClient ["a"], scenarioFilters, deleteOptions⟩
      (freshWorld [sidecarPod "a" [crashLooping], sidecarPod "b" [crashLooping]])).2 ≠ none :=
  ⟨by decide, by decide,
    (bulk_operations_run_every_pod ⟨protectedClient ["a"], scenarioFilters, deleteOptions⟩
      (freshWorld [sidecarPod "a" [crashLooping], sidecarPod "b" [crashLooping]])
      [sidecarPod "a" [crashLooping], sidecarPod "b" [crashLooping]] rfl).2.2.2
      ⟨some "forbidden", by decide, by decide⟩⟩

/-- C16: when the `List` succeeds and at least one per-pod delete fails, the
error returned by `DeleteBrokenPods` has as message the messages of the
failing deletes, in list order, joined by single commas; so the message of
every failing delete occurs in it. -/
theorem DeleteBrokenPods_error_message {σ : Type} (bpr : brokenPodReconciler σ) (w : World σ)
    (raw : List Pod)
    (hlist : (bpr.client.podsList w.store "" bpr.Filters.LabelSelectors
      bpr.Filters.FieldSelectors).2 = .ok raw)
    (hfail : failures (applyToEach (deleteBrokenPod bpr) (ListBrokenPods bpr w).2.1.range
      (ListBrokenPods bpr w).1).2 ≠ []) :
    (DeleteBrokenPods bpr w).2 =
      some (String.intercalate "," (failures (applyToEach (deleteBrokenPod bpr)
        (ListBrokenPods bpr w).2.1.range (ListBrokenPods bpr w).1).2)) ∧
    ∀ m ∈ failures (applyToEach (deleteBrokenPod bpr) (ListBrokenPods bpr w).2.1.range
        (ListBrokenPods bpr w).1).2,
      ∃ pre post, (DeleteBrokenPods bpr w).2 = some (pre ++ m ++ post) := by
  rw [DeleteBrokenPods_ok bpr w raw hlist]
  cases hf : failures (applyToEach (deleteBrokenPod bpr)
      (ListBrokenPods bpr w).2.1.range (ListBrokenPods bpr w).1).2 with
  | nil => exact absurd hf hfail
  | cons first others =>
    refine ⟨congrArg some (DeleteBrokenPods.join_eq first others), ?_⟩
    intro m hm
    obtain ⟨⟨post, hpost⟩, hrest⟩ := DeleteBrokenPods.join_contains first others
    rcases List.mem_cons.1 hm with rfl | hmem
    · exact ⟨"", post, congrArg some (by rw [hpost, String.empty_append])⟩
    · obtain ⟨pre, post1, h1⟩ := hrest m hmem
      exact ⟨pre, post1, congrArg some h1⟩

/-- Scenario D: two crash-looping pods are stored and the second is protected.
The first pod is deleted, and the error returned has exactly the message of
the failing second delete. -/
theorem DeleteBrokenPods_error_message_witness :
    (DeleteBrokenPods ⟨protectedClient ["b"], scenarioFilters, deleteOptions⟩
      (freshWorld [sidecarPod "a" [crashLooping], sidecarPod "b" [crashLooping]])).1.store =
        [sidecarPod "b" [crashLooping]] ∧
    (DeleteBrokenPods ⟨protectedClient ["b"], scenarioFilters, deleteOptions⟩
      (freshWorld [sidecarPod "a" [crashLooping], sidecarPod "b" [crashLooping]])).2 =
        some "forbidden" :=
  ⟨by decide,
    (DeleteBrokenPods_error_message ⟨protectedClient ["b"], scenarioFilters, deleteOptions⟩
      (freshWorld [sidecarPod "a" [crashLooping], sidecarPod "b" [crashLooping]])
      [sidecarPod "a" [crashLooping], sidecarPod "b" [crashLooping]] rfl (by decide)).1⟩

/-- C17: when the `List` of the store fails with the error `e`,
`LabelBrokenPods` and `DeleteBrokenPods` each return `e` and the only call
they issue on the pod store is that `List`: no `Update` and no `Delete`. -/
theorem bulk_operations_list_failure {σ : Type} (bpr : brokenPodReconciler σ) (w : World σ)
    (e : Error)
    (hlist : (bpr.client.podsList w.store "" bpr.Filters.LabelSelectors
      bpr.Filters.FieldSelectors).2 = .error e) :
    ((LabelBrokenPods bpr w).2 = some e ∧
      (LabelBrokenPods bpr w).1.calls =
        w.calls ++ [StoreCall.List "" bpr.Filters.LabelSelectors bpr.Filters.FieldSelectors] ∧
      (LabelBrokenPods bpr w).1.store =
        (bpr.client.podsList w.store "" bpr.Filters.LabelSelectors
          bpr.Filters.FieldSelectors).1) ∧
    ((DeleteBrokenPods bpr w).2 = some e ∧
      (DeleteBrokenPods bpr w).1.calls =
        w.calls ++ [StoreCall.List "" bpr.Filters.LabelSelectors bpr.Filters.FieldSelectors] ∧
      (DeleteBrokenPods bpr w).1.store =
        (bpr.client.podsList w.store "" bpr.Filters.LabelSelectors
          bpr.Filters.FieldSelectors).1) := by
  have hl : LabelBrokenPods bpr w = ((ListBrokenPods bpr w).1, some e) := by
    rw [LabelBrokenPods, ListBrokenPods_error bpr w e hlist]
  have hd : DeleteBrokenPods bpr w = ((ListBrokenPods bpr w).1, some e) := by
    rw [DeleteBrokenPods, ListBrokenPods_error bpr w e hlist]
  rw [hl, hd, ListBrokenPods_error bpr w e hlist]
  exact ⟨⟨rfl, rfl, rfl⟩, ⟨rfl, rfl, rfl⟩⟩

/-- Against the unreachable store both bulk operations return the error of
the `List` and issue no other call. -/
theorem bulk_operations_list_failure_witness :
    ((LabelBrokenPods ⟨unreachableClient, scenarioFilters, labelOptions⟩ (freshWorld ())).2 =
        some "connection refused" ∧
      (LabelBrokenPods ⟨unreachableClient, scenarioFilters, labelOptions⟩
        (freshWorld ())).1.calls = [StoreCall.List "" "" ""]) ∧
    ((DeleteBrokenPods ⟨unreachableClient, scenarioFilters, deleteOptions⟩ (freshWorld ())).2 =
        some "connection refused" ∧
      (DeleteBrokenPods ⟨unreachableClient, scenarioFilters, deleteOptions⟩
        (freshWorld ())).1.calls = [StoreCall.List "" "" ""]) :=
  ⟨⟨(bulk_operations_list_failure ⟨unreachableClient, scenarioFilters, labelOptions⟩
        (freshWorld ()) "connection refused" rfl).1.1,
      (bulk_operations_list_failure ⟨unreachableClient, scenarioFilters, labelOptions⟩
        (freshWorld ()) "connection refused" rfl).1.2.1⟩,
    ⟨(bulk_operations_list_failure ⟨unreachableClient, scenarioFilters, deleteOptions⟩
        (freshWorld ()) "connection refused" rfl).2.1,
      (bulk_operations_list_failure ⟨unreachableClient, scenarioFilters, deleteOptions⟩
        (freshWorld ()) "connection refused" rfl).2.2.1⟩⟩

/-! ## The one-shot path of `StartRepair` and `parseFlags` -/

/-- C13: with `LabelPods` and `DeletePods` both set, the one-shot path of
`StartRepair` runs `LabelBrokenPods` and then `DeleteBrokenPods`: on a store
holding the pod of Scenario A it issues a label `Update` for the pod and then
a `Delete` for the same pod, so labeling is not deactivated on this path. -/
theorem StartRepair_oneShot_labels_deleted_pod :
    labelAndDeleteOptions.LabelPods = true ∧ labelAndDeleteOptions.DeletePods = true ∧
    (StartRepair.oneShot ⟨memoryClient, scenarioFilters, labelAndDeleteOptions⟩
      (freshWorld [sidecarPod "a" [crashLooping]])).1.calls =
        [StoreCall.List "" "" "",
          StoreCall.Update "default"
            ((sidecarPod "a" [crashLooping]).SetLabels [("cni.istio.io/uninitialized", "true")]),
          StoreCall.List "" "" "",
          StoreCall.Delete "default" "a"] ∧
    (StartRepair.oneShot ⟨memoryClient, scenarioFilters, labelAndDeleteOptions⟩
      (freshWorld [sidecarPod "a" [crashLooping]])).1.store = [] ∧
    (StartRepair.oneShot ⟨memoryClient, scenarioFilters, labelAndDeleteOptions⟩
      (freshWorld [sidecarPod "a" [crashLooping]])).2 = none := by
  refine ⟨rfl, rfl, ?_, ?_, ?_⟩ <;> decide

theorem parseFlags_FieldSelectors (flags : Flags) :
    (flags.repairNodeName = "" →
      (parseFlags flags).1.FieldSelectors = flags.repairFieldSelectors) ∧
    (flags.repairNodeName ≠ "" →
      (parseFlags flags).1.FieldSelectors =
        "spec.nodeName=" ++ flags.repairNodeName ++ "," ++ flags.repairFieldSelectors) := by
  constructor
  · intro h
    simp [parseFlags, h]
  · intro h
    simp only [parseFlags, bne_iff_ne, ne_eq, h, not_false_eq_true, if_true]
    rfl

/-- C18: with the default, empty field selector and the node name `node-1`,
`parseFlags` yields the field selectors `spec.nodeName=node-1,`: the node term
followed by a comma, so that the comma-separated list ends in an empty term
and is not exactly `spec.nodeName=node-1`. -/
theorem parseFlags_trailing_comma :
    nodeFlags.repairFieldSelectors = "" ∧
    (parseFlags nodeFlags).1.FieldSelectors = "spec.nodeName=node-1," ∧
    splitTerms (parseFlags nodeFlags).1.FieldSelectors = ["spec.nodeName=node-1", ""] ∧
    (parseFlags nodeFlags).1.FieldSelectors ≠ "spec.nodeName=node-1" := by
  refine ⟨rfl, ?_, ?_, ?_⟩ <;> decide

/-! ## Outcome recording and order independence -/

theorem labelBrokenPod_metrics {σ : Type} (bpr : brokenPodReconciler σ) (pod : Pod)
    (w : World σ) :
    ∃ r, (labelBrokenPod bpr pod w).1.metrics = w.metrics ++ [(ActionType.labelType, r)] ∧
      (r = ResultType.resultSkip ↔ (labelBrokenPod bpr pod w).1.calls = w.calls) ∧
      (r = ResultType.resultFail ↔
        (labelBrokenPod bpr pod w).1.calls ≠ w.calls ∧ (labelBrokenPod bpr pod w).2 ≠ none) ∧
      (r = ResultType.resultSuccess ↔
        (labelBrokenPod bpr pod w).1.calls ≠ w.calls ∧ (labelBrokenPod bpr pod w).2 = none) := by
  by_cases hd : detectPod bpr.Filters pod = true
  · by_cases hh : GoMap.has pod.GetLabels bpr.Options.PodLabelKey = true
    · exact ⟨.resultSkip, by simp [labelBrokenPod, hd, hh, World.Increment]⟩
    · cases hres : (bpr.client.podsUpdate w.store pod.Namespace (pod.SetLabels (GoMap.set
          (match pod.GetLabels with
            | none => []
            | some m => m) bpr.Options.PodLabelKey bpr.Options.PodLabelValue))).2 with
      | error e =>
        refine ⟨.resultFail, ?_⟩
        simp_all [labelBrokenPod, brokenPodReconciler.Update, World.Increment, Pod.SetLabels]
      | ok u =>
        refine ⟨.resultSuccess, ?_⟩
        simp_all [labelBrokenPod, brokenPodReconciler.Update, World.Increment, Pod.SetLabels]
  · exact ⟨.resultSkip, by simp [labelBrokenPod, hd, World.Increment]⟩

theorem deleteBrokenPod_metrics {σ : Type} (bpr : brokenPodReconciler σ) (pod : Pod)
    (w : World σ) :
    ∃ r, (deleteBrokenPod bpr pod w).1.metrics = w.metrics ++ [(ActionType.deleteType, r)] ∧
      (r = ResultType.resultSkip ↔ (deleteBrokenPod bpr pod w).1.calls = w.calls) ∧
      (r = ResultType.resultFail ↔
        (deleteBrokenPod bpr pod w).1.calls ≠ w.calls ∧ (deleteBrokenPod bpr pod w).2 ≠ none) ∧
      (r = ResultType.resultSuccess ↔
        (deleteBrokenPod bpr pod w).1.calls ≠ w.calls ∧ (deleteBrokenPod bpr pod w).2 = none) := by
  by_cases hd : detectPod bpr.Filters pod = true
  · cases hres : (bpr.client.podsDelete w.store pod.Namespace pod.Name).2 with
    | some e =>
      refine ⟨.resultFail, ?_⟩
      simp [deleteBrokenPod, hd, brokenPodReconciler.Delete, hres, World.Increment]
    | none =>
      refine ⟨.resultSuccess, ?_⟩
      simp [deleteBrokenPod, hd, brokenPodReconciler.Delete, hres, World.Increment]
  · exact ⟨.resultSkip, by simp [deleteBrokenPod, hd, World.Increment]⟩

theorem labelBrokenPod_metrics_frame {σ : Type} (bpr : brokenPodReconciler σ) (pod : Pod)
    (w : World σ) (ms : List (ActionType × ResultType)) :
    (labelBrokenPod bpr pod { w with metrics := ms }).2 = (labelBrokenPod bpr pod w).2 ∧
    (labelBrokenPod bpr pod { w with metrics := ms }).1.calls =
      (labelBrokenPod bpr pod w).1.calls ∧
    (labelBrokenPod bpr pod { w with metrics := ms }).1.store =
      (labelBrokenPod bpr pod w).1.store := by
  by_cases hd : detectPod bpr.Filters pod = true
  · by_cases hh : GoMap.has pod.GetLabels bpr.Options.PodLabelKey = true
    · simp [labelBrokenPod, hd, hh, World.Increment]
    · cases hres : (bpr.client.podsUpdate w.store pod.Namespace (pod.SetLabels (GoMap.set
          (match pod.GetLabels with
            | none => []
            | some m => m) bpr.Options.PodLabelKey bpr.Options.PodLabelValue))).2 <;>
        simp_all [labelBrokenPod, brokenPodReconciler.Update, World.Increment, Pod.SetLabels]
  · simp [labelBrokenPod, hd, World.Increment]

theorem deleteBrokenPod_metrics_frame {σ : Type} (bpr : brokenPodReconciler σ) (pod : Pod)
    (w : World σ) (ms : List (ActionType × ResultType)) :
    (deleteBrokenPod bpr pod { w with metrics := ms }).2 = (deleteBrokenPod bpr pod w).2 ∧
    (deleteBrokenPod bpr pod { w with metrics := ms }).1.calls =
      (deleteBrokenPod bpr pod w).1.calls ∧
    (deleteBrokenPod bpr pod { w with metrics := ms }).1.store =
      (deleteBrokenPod bpr pod w).1.store := by
  by_cases hd : detectPod bpr.Filters pod = true
  · cases hres : (bpr.client.podsDelete w.store pod.Namespace pod.Name).2 <;>
      simp [deleteBrokenPod, hd, brokenPodReconciler.Delete, hres, World.Increment]
  · simp [deleteBrokenPod, hd, World.Increment]

/-- C19: every call of `labelBrokenPod` adds exactly one increment to the
metric, of type label, and every call of `deleteBrokenPod` exactly one of type
delete. Its result tag is skip exactly when the call issued nothing on the pod
store, fail exactly when it issued its `Update` or `Delete` and returned an
error, success exactly when it issued it and returned nil. The increments
recorded so far change neither the returned error nor the calls issued nor the
state of the store. -/
theorem outcome_recording {σ : Type} (bpr : brokenPodReconciler σ) (pod : Pod) (w : World σ) :
    (∃ r, (labelBrokenPod bpr pod w).1.metrics = w.metrics ++ [(ActionType.labelType, r)] ∧
      (r = ResultType.resultSkip ↔ (labelBrokenPod bpr pod w).1.calls = w.calls) ∧
      (r = ResultType.resultFail ↔
        (labelBrokenPod bpr pod w).1.calls ≠ w.calls ∧ (labelBrokenPod bpr pod w).2 ≠ none) ∧
      (r = ResultType.resultSuccess ↔
        (labelBrokenPod bpr pod w).1.calls ≠ w.calls ∧ (labelBrokenPod bpr pod w).2 = none)) ∧
    (∃ r, (deleteBrokenPod bpr pod w).1.metrics = w.metrics ++ [(ActionType.deleteType, r)] ∧
      (r = ResultType.resultSkip ↔ (deleteBrokenPod bpr pod w).1.calls = w.calls) ∧
      (r = ResultType.resultFail ↔
        (deleteBrokenPod bpr pod w).1.calls ≠ w.calls ∧ (deleteBrokenPod bpr pod w).2 ≠ none) ∧
      (r = ResultType.resultSuccess ↔
        (deleteBrokenPod bpr pod w).1.calls ≠ w.calls ∧ (deleteBrokenPod bpr pod w).2 = none)) ∧
    (∀ ms : List (ActionType × ResultType),
      ((labelBrokenPod bpr pod { w with metrics := ms }).2 = (labelBrokenPod bpr pod w).2 ∧
        (labelBrokenPod bpr pod { w with metrics := ms }).1.calls =
          (labelBrokenPod bpr pod w).1.calls ∧
        (labelBrokenPod bpr pod { w with metrics := ms }).1.store =
          (labelBrokenPod bpr pod w).1.store) ∧
      ((deleteBrokenPod bpr pod { w with metrics := ms }).2 = (deleteBrokenPod bpr pod w).2 ∧
        (deleteBrokenPod bpr pod { w with metrics := ms }).1.calls =
          (deleteBrokenPod bpr pod w).1.calls ∧
        (deleteBrokenPod bpr pod { w with metrics := ms }).1.store =
          (deleteBrokenPod bpr pod w).1.store)) :=
  ⟨labelBrokenPod_metrics bpr pod w, deleteBrokenPod_metrics bpr pod w,
    fun ms => ⟨labelBrokenPod_metrics_frame bpr pod w ms,
      deleteBrokenPod_metrics_frame bpr pod w ms⟩⟩

/-- The three outcomes on concrete runs: a pod that is not broken is a skip,
a delete that the store refuses is a fail, a label that the store accepts is a
success. -/
theorem outcome_recording_witness :
    (deleteBrokenPod ⟨memoryClient, scenarioFilters, deleteOptions⟩
      (sidecarPod "b" [exitedCleanly]) (freshWorld [sidecarPod "b" [exitedCleanly]])).1.metrics =
        [(ActionType.deleteType, ResultType.resultSkip)] ∧
    (deleteBrokenPod ⟨unreachableClient, scenarioFilters, deleteOptions⟩
      (sidecarPod "a" [crashLooping]) (freshWorld ())).1.metrics =
        [(ActionType.deleteType, ResultType.resultFail)] ∧
    (labelBrokenPod ⟨memoryClient, scenarioFilters, labelOptions⟩
      (sidecarPod "a" [crashLooping]) (freshWorld [sidecarPod "a" [crashLooping]])).1.metrics =
        [(ActionType.labelType, ResultType.resultSuccess)] ∧
    ∃ r, (labelBrokenPod ⟨memoryClient, scenarioFilters, labelOptions⟩
      (sidecarPod "a" [crashLooping]) (freshWorld [sidecarPod "a" [crashLooping]])).1.metrics =
        (freshWorld [sidecarPod "a" [crashLooping]]).metrics ++ [(ActionType.labelType, r)] :=
  ⟨by decide, by decide, by decide,
    (outcome_recording ⟨memoryClient, scenarioFilters, labelOptions⟩
      (sidecarPod "a" [crashLooping]) (freshWorld [sidecarPod "a" [crashLooping]])).1.imp
      (fun _ h => h.1)⟩

/-- C20: the result of `detectPod` does not depend on the order of the
init-container statuses: two pods that differ only by a permutation of them
get the same result; and a pod on which `detectPod` is true stays so when
further init-container statuses are appended. -/
theorem detectPod_order_independent (f : Filters) (p q : Pod) (extra : List ContainerStatus)
    (hmeta : q.ObjectMeta = p.ObjectMeta)
    (hperm : List.Perm p.Status.InitContainerStatuses q.Status.InitContainerStatuses) :
    detectPod f p = detectPod f q ∧
    (detectPod f p = true →
      detectPod f ⟨p.ObjectMeta, ⟨p.Status.InitContainerStatuses ++ extra⟩⟩ = true) := by
  constructor
  · have hany : p.Status.InitContainerStatuses.any (brokenContainer f) =
        q.Status.InitContainerStatuses.any (brokenContainer f) := by
      rw [Bool.eq_iff_iff, List.any_eq_true, List.any_eq_true]
      constructor
      · rintro ⟨c, hc, hb⟩
        exact ⟨c, hperm.mem_iff.1 hc, hb⟩
      · rintro ⟨c, hc, hb⟩
        exact ⟨c, hperm.mem_iff.2 hc, hb⟩
    rw [detectPod_eq, detectPod_eq, hany, hmeta]
  · intro h
    rw [detectPod_eq, Bool.and_eq_true] at h
    rw [detectPod_eq, Bool.and_eq_true]
    refine ⟨h.1, ?_⟩
    show (p.Status.InitContainerStatuses ++ extra).any (brokenContainer f) = true
    rw [List.any_append, h.2, Bool.true_or]

/-- With no name filter, the pod with a completed and a crash-looping init
container is broken in either order of the two, and with a third status
appended. -/
theorem detectPod_order_independent_witness :
    detectPod anyNameFilters (sidecarPod "a" [initDone, crashLooping]) =
      detectPod anyNameFilters (sidecarPod "a" [crashLooping, initDone]) ∧
    detectPod anyNameFilters (sidecarPod "a" [crashLooping, initDone]) = true ∧
    detectPod anyNameFilters (sidecarPod "a" [initDone, crashLooping, exitedCleanly]) = true :=
  ⟨(detectPod_order_independent anyNameFilters (sidecarPod "a" [initDone, crashLooping])
      (sidecarPod "a" [crashLooping, initDone]) [exitedCleanly] rfl
      (List.Perm.swap crashLooping initDone [])).1,
    by decide,
    (detectPod_order_independent anyNameFilters (sidecarPod "a" [initDone, crashLooping])
      (sidecarPod "a" [crashLooping, initDone]) [exitedCleanly] rfl
      (List.Perm.swap crashLooping initDone [])).2 (by decide)⟩

end repair
